import Mathlib

/-!
# fs-performance-test: the progress measurer and the two benchmark loops

A shallow embedding of `src/main.cpp`.

* `size_t` values are natural numbers reduced modulo `2 ^ bits`; `bits` is the
  width of `size_t` on the target (32 on the Cortex-M boards the program is
  built for; the source prints `size_t` with `%i`).
* `float` values live in an arbitrary carrier `F` with the four operations the
  source uses (`FloatOps`): conversion from an integer, `*`, `-` and `/`.  The
  division is an ordinary total operation of `F`: float division does not trap.
  Concrete evaluations use the rationals (`ratOps`) at values that binary
  floating point represents exactly.
* `Timer::read()` is an input: every call that may read the timer receives the
  value the timer would return.
* `log(...)` calls of `ProgressMeasurer` are recorded as `Line` values, one per
  call, holding the arguments of the format string.
-/

namespace FsPerf

/-- The float operations used by `ProgressMeasurer`. -/
structure FloatOps (F : Type) where
  /-- Conversion of an integer (`size_t` or literal) to `float`. -/
  ofNat : Nat → F
  mul : F → F → F
  sub : F → F → F
  div : F → F → F

/-- Exact rational arithmetic as an instance of the float operations. -/
def ratOps : FloatOps ℚ where
  ofNat := fun n => (n : ℚ)
  mul := fun a b => a * b
  sub := fun a b => a - b
  div := fun a b => a / b

/-- One call of `log` made by `ProgressMeasurer`, with the format arguments. -/
inductive Line (F : Type) where
  /-- The call `log("Progress %4i/%i", _current_step, _total_steps)`. -/
  | progress_start (done total : Nat)
  /-- The call `log("Progress %4i/%i. Speed %.1f %s", _current_step, _total_steps, speed, _unit)`. -/
  | progress (done total : Nat) (speed : F) (unit : String)
  /-- The call `log("-----------------------------------")`. -/
  | rule
  /-- The call `log("Total time:    %.1f seconds", total_time)`. -/
  | total_time (t : F)
  /-- The call `log("Average speed: %.1f %s", speed, _unit)`. -/
  | average_speed (speed : F) (unit : String)
  deriving DecidableEq, Repr

/-- The data members of `class ProgressMeasurer` (the `Timer` is an input). -/
structure ProgressMeasurer (F : Type) where
  unit : String
  total_steps : Nat
  log_step : Nat
  block_size : F
  log_block_size : F
  current_step : Nat
  log_i : Nat
  prev_t : F
  deriving DecidableEq, Repr

namespace ProgressMeasurer

variable {F : Type}

/-- The constructor: `_log_block_size(block_size * log_step)`.  The members
`_current_step`, `_log_i` and `_prev_t` are not initialised by the constructor;
`start` assigns all three, they are given the value zero here. -/
def new (ops : FloatOps F) (unit : String) (total_steps log_step : Nat) (block_size : F) :
    ProgressMeasurer F :=
  { unit := unit
    total_steps := total_steps
    log_step := log_step
    block_size := block_size
    log_block_size := ops.mul block_size (ops.ofNat log_step)
    current_step := 0
    log_i := 0
    prev_t := ops.ofNat 0 }

/-- The member `start()`: resets the counters and the time baseline, logs `0 / total`. -/
def start (ops : FloatOps F) (s : ProgressMeasurer F) : ProgressMeasurer F × List (Line F) :=
  ({ s with current_step := 0, log_i := 0, prev_t := ops.ofNat 0 },
   [Line.progress_start 0 s.total_steps])

/-- The member `update()`; `now` is what `_timer.read()` returns if this call reads it. -/
def update (bits : Nat) (ops : FloatOps F) (s : ProgressMeasurer F) (now : F) :
    ProgressMeasurer F × List (Line F) :=
  let log_i := (s.log_i + 1) % 2 ^ bits
  let current_step := (s.current_step + 1) % 2 ^ bits
  if log_i ≥ s.log_step then
    let current_t := now
    let dt := ops.sub current_t s.prev_t
    let speed := ops.div s.log_block_size dt
    ({ s with log_i := 0, current_step := current_step, prev_t := current_t },
     [Line.progress current_step s.total_steps speed s.unit])
  else
    ({ s with log_i := log_i, current_step := current_step }, [])

/-- The member `finish()`; `now₁` is the timer reading taken for a ragged window (read only
when `_log_i != 0`), `now₂` the reading taken for the total time. -/
def finish (ops : FloatOps F) (s : ProgressMeasurer F) (now₁ now₂ : F) : List (Line F) :=
  (if s.log_i ≠ 0 then
    let current_t := now₁
    let dt := ops.sub current_t s.prev_t
    let speed := ops.div s.log_block_size dt
    [Line.progress s.current_step s.total_steps speed s.unit]
  else []) ++
  (let total_time := now₂
   let speed := ops.div (ops.mul s.block_size (ops.ofNat s.total_steps)) total_time
   [Line.rule, Line.total_time total_time, Line.average_speed speed s.unit, Line.rule])

/-- The measurer after `start()` and `n` calls of `update()`, with the lines
logged by those `update()` calls; `clock i` is the timer reading available to
call number `i + 1`. -/
def updates (bits : Nat) (ops : FloatOps F) (s : ProgressMeasurer F) (clock : Nat → F) :
    Nat → ProgressMeasurer F × List (Line F)
  | 0 => (s, [])
  | n + 1 =>
    let r := updates bits ops s clock n
    let u := update bits ops r.1 (clock n)
    (u.1, r.2 ++ u.2)

/-- A measurement session: construct, `start()`, `n` times `update()`. -/
def session (bits : Nat) (ops : FloatOps F) (unit : String) (total_steps log_step : Nat)
    (block_size : F) (clock : Nat → F) (n : Nat) : ProgressMeasurer F × List (Line F) :=
  updates bits ops (start ops (new ops unit total_steps log_step block_size)).1 clock n

/-- The four lines of the final summary. -/
def summary (ops : FloatOps F) (s : ProgressMeasurer F) (now : F) : List (Line F) :=
  [Line.rule, Line.total_time now,
   Line.average_speed (ops.div (ops.mul s.block_size (ops.ofNat s.total_steps)) now) s.unit,
   Line.rule]

end ProgressMeasurer

open ProgressMeasurer

/-! ## The benchmark loops

The functions of `pathutil.h` and of the C library that the benchmarks call
are a parameter (`FileSystem`): each takes the state of the world and returns
its result with the new state.  A run records every such call, every call of a
`ProgressMeasurer` member, and `MBED_ERROR`, in a trace.  `MBED_ERROR` is the
fatal error of Mbed OS: it does not return, the run stops there (`halted`).
`FILE*` values are numbers, `NULL` is `0`.  Console output of the benchmark
functions themselves is not recorded.  Path buffers are strings without a
capacity.
-/

/-- The three measurer objects of the benchmark functions. -/
inductive Measurer where
  | progress_measurer
  | write_measurer
  | read_measurer
  deriving DecidableEq, Repr

/-- The observable steps of a benchmark run. -/
inductive Ev where
  /-- Call `exists(path)` and its result -/
  | path_exists (path : String) (res : Bool)
  /-- Call `rmtree(path)` and its status -/
  | rmtree (path : String) (code : Int)
  /-- Call `makedirs(path, mode, exist_ok)` and its status -/
  | makedirs (path : String) (mode : Nat) (exist_ok : Bool) (code : Int)
  /-- Call `write_data(path, buff, size)` and its status -/
  | write_data (path : String) (size : Nat) (code : Int)
  /-- Call `fopen(path, mode)` and the pointer returned -/
  | fopen (path : String) (mode : String) (file : Nat)
  /-- Call `fwrite(buff, 1, count, file)` and the count returned -/
  | fwrite (count : Nat) (file : Nat) (res : Nat)
  /-- Call `fread(buff, 1, count, file)` and the count returned -/
  | fread (count : Nat) (file : Nat) (res : Nat)
  /-- Call `fclose(file)` and its status -/
  | fclose (file : Nat) (code : Int)
  /-- construction of a `ProgressMeasurer(unit, total_steps, log_step, block_size)` -/
  | pm_new (m : Measurer) (unit : String) (total_steps log_step block_size : Nat)
  | pm_start (m : Measurer)
  | pm_update (m : Measurer)
  | pm_finish (m : Measurer)
  /-- the top of the body of a `round_i` loop: the `files` array is about to be refilled -/
  | round_begin (m : Measurer) (round_i : Nat)
  /-- The statement `delete[] files`. -/
  | delete_files
  /-- The macro `MBED_ERROR(..., msg)`. -/
  | mbed_error (msg : String)
  deriving DecidableEq, Repr

/-- The functions the benchmarks call, over a world state `σ`. -/
structure FileSystem (σ : Type) where
  path_exists : σ → String → Bool × σ
  rmtree : σ → String → Int × σ
  makedirs : σ → String → Nat → Bool → Int × σ
  write_data : σ → String → List Nat → Nat → Int × σ
  normpath : String → String
  append_path : String → String → String
  fopen : σ → String → String → Nat × σ
  fwrite : σ → List Nat → Nat → Nat → Nat × σ
  fread : σ → Nat → Nat → Nat × σ
  fclose : σ → Nat → Int × σ

/-- The state of a benchmark run. -/
structure Run (σ : Type) where
  fs : σ
  /-- the array `files` -/
  files : Nat → Nat
  trace : List Ev
  halted : Bool

namespace Run

variable {σ : Type}

def init (fs : σ) : Run σ :=
  { fs := fs, files := fun _ => 0, trace := [], halted := false }

def emit (e : Ev) (r : Run σ) : Run σ :=
  { r with trace := r.trace ++ [e] }

/-- The macro `MBED_ERROR(..., msg)`: reports and halts. -/
def mbed_error (msg : String) (r : Run σ) : Run σ :=
  { r with trace := r.trace ++ [Ev.mbed_error msg], halted := true }

/-- A statement that follows a possible halt. -/
def next (f : Run σ → Run σ) (r : Run σ) : Run σ :=
  if r.halted then r else f r

/-- The macro `CHECK_ERROR(EXPR)` for the status `code` of the call `expr`. -/
def check_error (expr : String) (code : Int) (r : Run σ) : Run σ :=
  if code ≠ 0 then r.mbed_error expr else r

/-- The loop `for (i = 0; i < n; i++) body`, where the body may halt the run. -/
def for_range (n : Nat) (body : Nat → Run σ → Run σ) (r : Run σ) : Run σ :=
  (List.range n).foldl (fun r i => next (body i) r) r

end Run

open Run

variable {σ : Type}

/-- The common first block: `if (exists(test_dir)) { CHECK_ERROR(rmtree(test_dir)); }`. -/
def remove_previous (env : FileSystem σ) (test_dir : String) (r : Run σ) : Run σ :=
  let ex := env.path_exists r.fs test_dir
  let r := { r with fs := ex.2 }.emit (Ev.path_exists test_dir ex.1)
  if ex.1 then
    let rm := env.rmtree r.fs test_dir
    ({ r with fs := rm.2 }.emit (Ev.rmtree test_dir rm.1)).check_error "rmtree(test_dir)" rm.1
  else r

/-- The statement `CHECK_ERROR(makedirs(test_dir, 0777, true))`. -/
def create_test_dir (env : FileSystem σ) (test_dir : String) (r : Run σ) : Run σ :=
  let mk := env.makedirs r.fs test_dir 0o777 true
  ({ r with fs := mk.2 }.emit (Ev.makedirs test_dir 0o777 true mk.1)).check_error
    "makedirs(test_dir, 0777, true)" mk.1

/-- The final `rmtree(test_dir)`, whose status is not looked at. -/
def remove_test_dir (env : FileSystem σ) (test_dir : String) (r : Run σ) : Run σ :=
  let rm := env.rmtree r.fs test_dir
  { r with fs := rm.2 }.emit (Ev.rmtree test_dir rm.1)

/-- The body of the file creation loop: `sprintf`, `write_data`, `update`. -/
def create_file (env : FileSystem σ) (test_dir : String) (buff : List Nat) (file_size : Nat)
    (i : Nat) (r : Run σ) : Run σ :=
  let file_path := env.normpath test_dir ++ "/" ++ "test_file_" ++ toString i
  let wr := env.write_data r.fs file_path buff file_size
  ({ r with fs := wr.2 }.emit (Ev.write_data file_path file_size wr.1)).emit
    (Ev.pm_update Measurer.progress_measurer)

/-- The function `measure_file_creation_speed(test_dir, cleanup_dir, file_size, n_files)`.
The loop variable of the source is an `int` compared with the `size_t`
`n_files`; the loop is the one the source runs for `n_files` up to `INT_MAX`. -/
def measure_file_creation_speed (env : FileSystem σ) (fs : σ) (test_dir : String)
    (cleanup_dir : Bool) (file_size n_files : Nat) : Run σ :=
  let r := remove_previous env test_dir (Run.init fs)
  let buff := List.replicate file_size 65
  let r := next (create_test_dir env test_dir) r
  let r := next (emit (Ev.pm_new Measurer.progress_measurer "it/s" n_files 32 1)) r
  let r := next (emit (Ev.pm_start Measurer.progress_measurer)) r
  let r := for_range n_files (create_file env test_dir buff file_size) r
  let r := next (emit (Ev.pm_finish Measurer.progress_measurer)) r
  next (remove_test_dir env test_dir) r

/-- The loop that opens the files of a round. -/
def open_files (env : FileSystem σ) (test_dir mode : String) (round_i files_per_round : Nat)
    (r : Run σ) : Run σ :=
  for_range files_per_round (fun file_no r =>
    let filename := "test_" ++ toString round_i ++ "_" ++ toString file_no ++ ".txt"
    let path := env.append_path test_dir filename
    let op := env.fopen r.fs path mode
    let r := { r with fs := op.2, files := Function.update r.files file_no op.1 }.emit
      (Ev.fopen path mode op.1)
    if r.files file_no = 0 then r.mbed_error "Fail to create file" else r) r

/-- The block loops of a write round. -/
def write_blocks (env : FileSystem σ) (buff : List Nat)
    (block_size blocks_per_file files_per_round : Nat) (r : Run σ) : Run σ :=
  for_range blocks_per_file (fun _ r =>
    for_range files_per_round (fun file_no r =>
      let wr := env.fwrite r.fs buff block_size (r.files file_no)
      let r := { r with fs := wr.2 }.emit (Ev.fwrite block_size (r.files file_no) wr.1)
      if wr.1 ≠ block_size then r.mbed_error "Fail to write data to file"
      else r.emit (Ev.pm_update Measurer.write_measurer)) r) r

/-- The block loops of a read round.  The bytes read into `buff` are not looked at. -/
def read_blocks (env : FileSystem σ)
    (block_size blocks_per_file files_per_round : Nat) (r : Run σ) : Run σ :=
  for_range blocks_per_file (fun _ r =>
    for_range files_per_round (fun file_no r =>
      let rd := env.fread r.fs block_size (r.files file_no)
      let r := { r with fs := rd.2 }.emit (Ev.fread block_size (r.files file_no) rd.1)
      if rd.1 ≠ block_size then r.mbed_error "Fail to read data to file"
      else r.emit (Ev.pm_update Measurer.read_measurer)) r) r

/-- The loop that closes the files of a round. -/
def close_files (env : FileSystem σ) (files_per_round : Nat) (r : Run σ) : Run σ :=
  for_range files_per_round (fun file_no r =>
    let cl := env.fclose r.fs (r.files file_no)
    let r := { r with fs := cl.2 }.emit (Ev.fclose (r.files file_no) cl.1)
    if cl.1 ≠ 0 then r.mbed_error "Fail to close file" else r) r

/-- The write test: all rounds of the write phase. -/
def write_rounds (env : FileSystem σ) (test_dir : String) (buff : List Nat)
    (block_size blocks_per_file files_per_round n_rounds : Nat) (r : Run σ) : Run σ :=
  for_range n_rounds (fun round_i r =>
    let r := r.emit (Ev.round_begin Measurer.write_measurer round_i)
    let r := open_files env test_dir "wb" round_i files_per_round r
    let r := write_blocks env buff block_size blocks_per_file files_per_round r
    close_files env files_per_round r) r

/-- The read test: all rounds of the read phase. -/
def read_rounds (env : FileSystem σ) (test_dir : String)
    (block_size blocks_per_file files_per_round n_rounds : Nat) (r : Run σ) : Run σ :=
  for_range n_rounds (fun round_i r =>
    let r := r.emit (Ev.round_begin Measurer.read_measurer round_i)
    let r := open_files env test_dir "rb" round_i files_per_round r
    let r := read_blocks env block_size blocks_per_file files_per_round r
    close_files env files_per_round r) r

/-- The `size_t` product `blocks_per_file * n_rounds * files_per_round`. -/
def total_blocks (bits blocks_per_file files_per_round n_rounds : Nat) : Nat :=
  ((blocks_per_file * n_rounds) % 2 ^ bits * files_per_round) % 2 ^ bits

/-- The function `measure_write_read_speed(test_dir, cleanup_dir, block_size, blocks_per_file,
files_per_round, n_rounds)`.  The loop counters are `size_t` values below their
bounds; the only `size_t` arithmetic that can wrap is `total_blocks`. -/
def measure_write_read_speed (bits : Nat) (env : FileSystem σ) (fs : σ) (test_dir : String)
    (cleanup_dir : Bool) (block_size blocks_per_file files_per_round n_rounds : Nat) : Run σ :=
  let r := remove_previous env test_dir (Run.init fs)
  let r := next (create_test_dir env test_dir) r
  let buff := List.replicate block_size 66
  let progress_tick := 64
  let total := total_blocks bits blocks_per_file files_per_round n_rounds
  let r := next (emit (Ev.pm_new Measurer.write_measurer "B/s" total progress_tick block_size)) r
  let r := next (emit (Ev.pm_start Measurer.write_measurer)) r
  let r := write_rounds env test_dir buff block_size blocks_per_file files_per_round n_rounds r
  let r := next (emit (Ev.pm_finish Measurer.write_measurer)) r
  let r := next (emit (Ev.pm_new Measurer.read_measurer "B/s" total progress_tick block_size)) r
  let r := next (emit (Ev.pm_start Measurer.read_measurer)) r
  let r := read_rounds env test_dir block_size blocks_per_file files_per_round n_rounds r
  let r := next (emit (Ev.pm_finish Measurer.read_measurer)) r
  let r := next (emit Ev.delete_files) r
  next (remove_test_dir env test_dir) r

/-- A world in which every call succeeds except `write_data`, which fails with
status `-1`; handles are numbered from 1. -/
def failing_write_data : FileSystem Nat where
  path_exists := fun s _ => (false, s)
  rmtree := fun s _ => (0, s)
  makedirs := fun s _ _ _ => (0, s)
  write_data := fun s _ _ _ => (-1, s)
  normpath := fun p => p
  append_path := fun p f => p ++ "/" ++ f
  fopen := fun s _ _ => (s + 1, s + 1)
  fwrite := fun s _ n _ => (n, s)
  fread := fun s n _ => (n, s)
  fclose := fun s _ => (0, s)

/-- A world in which every call succeeds; handles are numbered from 1. -/
def healthy : FileSystem Nat :=
  { failing_write_data with write_data := fun s _ _ _ => (0, s) }

/-- A world in which every `fwrite` writes nothing and all else succeeds. -/
def short_write : FileSystem Nat :=
  { healthy with fwrite := fun s _ _ _ => (0, s) }

/-- A world in which the third `fopen` returns `NULL` and all else succeeds. -/
def third_open_fails : FileSystem Nat :=
  { healthy with fopen := fun s _ _ => if s = 2 then (0, s + 1) else (s + 1, s + 1) }

/-! ## Observations on a trace -/

/-- The measurer constructions, block transfers and progress updates of a trace. -/
inductive Transfer where
  | constructed (m : Measurer) (total_steps : Nat)
  | wrote (n : Nat)
  | read (n : Nat)
  | update (m : Measurer)
  deriving DecidableEq, Repr

/-- The transfer or update an event stands for, if any. -/
def io_view : Ev → Option Transfer
  | Ev.fwrite _ _ res => some (Transfer.wrote res)
  | Ev.fread _ _ res => some (Transfer.read res)
  | Ev.pm_update m => some (Transfer.update m)
  | Ev.pm_new m _ total_steps _ _ => some (Transfer.constructed m total_steps)
  | _ => none

/-- The transfers, updates and constructions of a trace, in order. -/
def view (tr : List Ev) : List Transfer := tr.filterMap io_view

/-- The list `pat ++ pat ++ ... ++ pat` of `n` copies of `pat`. -/
def repeat_list {α : Type} (n : Nat) (pat : List α) : List α :=
  match n with
  | 0 => []
  | n + 1 => repeat_list n pat ++ pat

/-- The number of `update()` calls on measurer `m` in a trace. -/
def update_count (m : Measurer) (tr : List Ev) : Nat :=
  tr.count (Ev.pm_update m)

/-- The bytes an event reports as written. -/
def Ev.written : Ev → Nat
  | Ev.fwrite _ _ res => res
  | _ => 0

/-- The bytes an event reports as read. -/
def Ev.bytes_read : Ev → Nat
  | Ev.fread _ _ res => res
  | _ => 0

/-- The total of the counts returned by `fwrite` in a trace. -/
def bytes_written (tr : List Ev) : Nat := (tr.map Ev.written).sum

/-- The total of the counts returned by `fread` in a trace. -/
def bytes_read (tr : List Ev) : Nat := (tr.map Ev.bytes_read).sum

/-- The effect of an event on the handles that are open, listed in the order
they were opened: a successful `fopen` adds the pointer it returns;
`fclose(file)` removes `file` from the list (the stream is gone whether or not
`fclose` reports success) and removes nothing when `file` is not open. -/
def open_step (l : List Nat) : Ev → List Nat
  | Ev.fopen _ _ file => if file = 0 then l else l ++ [file]
  | Ev.fclose file _ => l.erase file
  | _ => l

/-- The handles that are open after a trace. -/
def open_handles (tr : List Ev) : List Nat := tr.foldl open_step []

/-- The points at which the `files` array is refilled or released. -/
def Ev.is_checkpoint : Ev → Bool
  | Ev.round_begin _ _ => true
  | Ev.delete_files => true
  | _ => false

/-- The bytes a transfer reports as written. -/
def Transfer.written : Transfer → Nat
  | Transfer.wrote n => n
  | _ => 0

/-- The bytes a transfer reports as read. -/
def Transfer.bytes_read : Transfer → Nat
  | Transfer.read n => n
  | _ => 0

/-- The handle discipline of a trace: after every event at most `limit` handles
are open, and no handle is open when the array is refilled or released. -/
def HandlesOK (limit : Nat) (tr : List Ev) : Prop :=
  ∀ pre e, (pre ++ [e]) <+: tr →
    (open_handles (pre ++ [e])).length ≤ limit ∧
      (e.is_checkpoint = true → open_handles pre = [])

/-! ## Properties of the steps of a run -/

/-- A step that leaves a halted run alone. -/
def Guarded {σ : Type} (f : Run σ → Run σ) : Prop :=
  ∀ r, r.halted = true → f r = r

/-- The step `f` adds `pat` to the view of every run it does not halt. -/
def Grows {σ : Type} (f : Run σ → Run σ) (pat : List Transfer) : Prop :=
  ∀ r, r.halted = false → (f r).halted = false → view (f r).trace = view r.trace ++ pat

/-- The step `f` does not halt a run. -/
def Completes {σ : Type} (f : Run σ → Run σ) : Prop :=
  ∀ r, r.halted = false → (f r).halted = false

/-- An event that opens and closes nothing and is no checkpoint. -/
def Neutral (e : Ev) : Prop :=
  (∀ l, open_step l e = l) ∧ e.is_checkpoint = false

/-- The state of a run keeps the handle discipline, and if the run goes on the
open handles are the entries `g files` of the array `files`. -/
def Ok {σ : Type} (limit : Nat) (g : (Nat → Nat) → List Nat) (r : Run σ) : Prop :=
  HandlesOK limit r.trace ∧ (r.halted = false → open_handles r.trace = g r.files)

/-- The step `f` takes a run that goes on with the handles `g files` open to one
with the handles `g' files` open. -/
def Keeps {σ : Type} (limit : Nat) (f : Run σ → Run σ) (g g' : (Nat → Nat) → List Nat) :
    Prop :=
  ∀ r, r.halted = false → Ok limit g r → Ok limit g' (f r)

/-- A halted run has `MBED_ERROR` as its last step. -/
def HaltsLast {σ : Type} (r : Run σ) : Prop :=
  r.halted = true → ∃ msg, r.trace.getLast? = some (Ev.mbed_error msg)

/-- When the step `f` halts a run, `MBED_ERROR` is the last thing it does. -/
def Stops {σ : Type} (f : Run σ → Run σ) : Prop :=
  ∀ r, r.halted = false → HaltsLast (f r)

/-! ## The windows of a session -/

/-- The timer reading at the `k`-th window boundary: zero right after `start()`,
otherwise the reading given to update number `k * w`. -/
def boundary_time {F : Type} (ops : FloatOps F) (clock : Nat → F) (w k : Nat) : F :=
  if k = 0 then ops.ofNat 0 else clock (k * w - 1)

/-- The line logged at the end of window number `k + 1` of a session. -/
def window_line {F : Type} (bits : Nat) (ops : FloatOps F) (unit : String) (total w : Nat)
    (payload : F) (clock : Nat → F) (k : Nat) : Line F :=
  Line.progress (((k + 1) * w) % 2 ^ bits) total
    (ops.div (ops.mul payload (ops.ofNat w))
      (ops.sub (clock ((k + 1) * w - 1)) (boundary_time ops clock w k)))
    unit

/-! ## Arithmetic of the window counter -/

theorem succ_boundary {n w : Nat} (h : n % w + 1 = w) :
    (n + 1) / w = n / w + 1 ∧ (n + 1) % w = 0 ∧ n + 1 = (n / w + 1) * w := by
  have hw : 0 < w := by omega
  have e : n + 1 = (n / w + 1) * w := by
    have := Nat.div_add_mod n w
    have e2 : (n / w + 1) * w = w * (n / w) + w := by ring
    omega
  refine ⟨?_, ?_, e⟩
  · rw [e, Nat.mul_div_cancel _ hw]
  · rw [e, Nat.mul_mod_left]

theorem succ_inside {n w : Nat} (h : n % w + 1 < w) :
    (n + 1) / w = n / w ∧ (n + 1) % w = n % w + 1 := by
  have hw : 0 < w := by omega
  have e : n + 1 = (n % w + 1) + w * (n / w) := by
    have := Nat.div_add_mod n w
    omega
  constructor
  · rw [e, Nat.add_mul_div_left _ _ hw, Nat.div_eq_of_lt h, Nat.zero_add]
  · rw [e, Nat.add_mul_mod_self_left, Nat.mod_eq_of_lt h]

/-! ## The state and the output of a session after `n` updates -/

theorem session_spec {F : Type} (bits : Nat) (ops : FloatOps F) (unit : String)
    (total w : Nat) (payload : F) (clock : Nat → F) (hw : 1 ≤ w) (hb : w < 2 ^ bits)
    (n : Nat) :
    session bits ops unit total w payload clock n =
      ({ unit := unit, total_steps := total, log_step := w, block_size := payload,
         log_block_size := ops.mul payload (ops.ofNat w),
         current_step := n % 2 ^ bits, log_i := n % w,
         prev_t := boundary_time ops clock w (n / w) },
       (List.range (n / w)).map (window_line bits ops unit total w payload clock)) := by
  induction n with
  | zero =>
    simp [session, updates, start, new, boundary_time]
  | succ n ih =>
    unfold session at ih ⊢
    rw [updates]
    simp only [ih]
    have hlt : n % w < w := Nat.mod_lt _ (by omega)
    have hmod : (n % w + 1) % 2 ^ bits = n % w + 1 := Nat.mod_eq_of_lt (by omega)
    have hcs : (n % 2 ^ bits + 1) % 2 ^ bits = (n + 1) % 2 ^ bits := by
      rw [Nat.add_mod n 1, Nat.add_mod (n % 2 ^ bits) 1, Nat.mod_mod]
    by_cases hbd : n % w + 1 = w
    · obtain ⟨hd, hm, he⟩ := succ_boundary hbd
      have hge : n % w + 1 ≥ w := by omega
      simp only [update, hmod, hge, if_true, hcs]
      rw [hd, hm, List.range_succ, List.map_append]
      have hbt : boundary_time ops clock w (n / w + 1) = clock n := by
        simp only [boundary_time, Nat.succ_ne_zero, if_false, ← he, Nat.add_sub_cancel]
      simp only [hbt, List.map_cons, List.map_nil, window_line, ← he, Nat.add_sub_cancel]
    · obtain ⟨hd, hm⟩ := succ_inside (by omega : n % w + 1 < w)
      have hnge : ¬ n % w + 1 ≥ w := by omega
      simp only [update, hmod, hnge, if_false, hcs, List.append_nil]
      rw [hd, hm]

/-- The constructor arguments are never changed by `start()` and `update()`. -/
theorem session_config {F : Type} (bits : Nat) (ops : FloatOps F) (unit : String)
    (total w : Nat) (payload : F) (clock : Nat → F) (n : Nat) :
    (session bits ops unit total w payload clock n).1.unit = unit ∧
    (session bits ops unit total w payload clock n).1.total_steps = total ∧
    (session bits ops unit total w payload clock n).1.log_step = w ∧
    (session bits ops unit total w payload clock n).1.block_size = payload ∧
    (session bits ops unit total w payload clock n).1.log_block_size =
      ops.mul payload (ops.ofNat w) := by
  induction n with
  | zero => simp [session, updates, start, new]
  | succ n ih =>
    unfold session at ih ⊢
    rw [updates]
    simp only [update]
    split <;> exact ih

/-- The output of `finish()` ends with the summary, computed from the
constructor's `total_steps`. -/
theorem finish_eq {F : Type} (ops : FloatOps F) (s : ProgressMeasurer F) (t₁ t₂ : F) :
    finish ops s t₁ t₂ =
      (if s.log_i ≠ 0 then
        [Line.progress s.current_step s.total_steps
          (ops.div s.log_block_size (ops.sub t₁ s.prev_t)) s.unit]
       else []) ++ summary ops s t₂ := rfl

/-! ## Claims about `ProgressMeasurer` -/

/-- C1 (amended): for a window size `1 ≤ w` (a `size_t`), the `update()` calls of
a session of `N` updates log exactly `N / w` lines; update number `n + 1` logs a
line exactly when `w` divides `n + 1`, and that line shows the step counter
`(n + 1) mod 2 ^ bits`; so the `k`-th line shows `done = k * w mod 2 ^ bits`,
which is `k * w` when `N < 2 ^ bits`; and when `w` divides `N`, `finish()` logs
the four summary lines only. -/
theorem update_reports_every_window {F : Type} (bits : Nat) (ops : FloatOps F)
    (unit : String) (total w : Nat) (payload : F) (clock : Nat → F) (N : Nat)
    (hw : 1 ≤ w) (hb : w < 2 ^ bits) :
    (session bits ops unit total w payload clock N).2.length = N / w ∧
    (∀ n, (update bits ops (session bits ops unit total w payload clock n).1 (clock n)).2 =
      if (n + 1) % w = 0 then
        [Line.progress ((n + 1) % 2 ^ bits) total
          (ops.div (ops.mul payload (ops.ofNat w))
            (ops.sub (clock n) (session bits ops unit total w payload clock n).1.prev_t)) unit]
      else []) ∧
    (∀ k, k < N / w →
      (session bits ops unit total w payload clock N).2.get? k =
        some (Line.progress (((k + 1) * w) % 2 ^ bits) total
          (ops.div (ops.mul payload (ops.ofNat w))
            (ops.sub (clock ((k + 1) * w - 1))
              (if k = 0 then ops.ofNat 0 else clock (k * w - 1)))) unit) ∧
      (N < 2 ^ bits → ((k + 1) * w) % 2 ^ bits = (k + 1) * w)) ∧
    (N % w = 0 → ∀ t₁ t₂,
      finish ops (session bits ops unit total w payload clock N).1 t₁ t₂ =
        [Line.rule, Line.total_time t₂,
         Line.average_speed (ops.div (ops.mul payload (ops.ofNat total)) t₂) unit,
         Line.rule]) := by
  refine ⟨?_, ?_, ?_, ?_⟩
  · rw [session_spec bits ops unit total w payload clock hw hb]
    simp
  · intro n
    rw [session_spec bits ops unit total w payload clock hw hb]
    have hlt : n % w < w := Nat.mod_lt _ (by omega)
    have hmod : (n % w + 1) % 2 ^ bits = n % w + 1 := Nat.mod_eq_of_lt (by omega)
    have hcs : (n % 2 ^ bits + 1) % 2 ^ bits = (n + 1) % 2 ^ bits := by
      rw [Nat.add_mod n 1, Nat.add_mod (n % 2 ^ bits) 1, Nat.mod_mod]
    by_cases hbd : n % w + 1 = w
    · obtain ⟨_, hm, _⟩ := succ_boundary hbd
      have hge : n % w + 1 ≥ w := by omega
      simp only [update, hmod, hge, if_true, hcs, hm]
    · obtain ⟨_, hm⟩ := succ_inside (by omega : n % w + 1 < w)
      have hnge : ¬ n % w + 1 ≥ w := by omega
      have hne : ¬ n % w + 1 = 0 := by omega
      simp only [update, hmod, hnge, if_false, hm, hne]
  · intro k hk
    constructor
    · rw [session_spec bits ops unit total w payload clock hw hb]
      simp [List.get?_eq_getElem?, hk, window_line, boundary_time]
    · intro hN
      apply Nat.mod_eq_of_lt
      have h1 : (k + 1) * w ≤ N / w * w := Nat.mul_le_mul_right w hk
      have h2 : N / w * w ≤ N := Nat.div_mul_le_self N w
      omega
  · intro hN t₁ t₂
    rw [finish_eq, session_spec bits ops unit total w payload clock hw hb]
    simp [hN, summary]

/-- C1 (witness): `total_steps = 100`, window 10, 100 updates: ten lines from
`update()`, the tenth showing `done = 100`, and `finish()` logs the summary only. -/
theorem update_reports_every_window_witness :
    (1 ≤ 10 ∧ 10 < 2 ^ 32 ∧ 9 < 100 / 10 ∧ 100 < 2 ^ 32 ∧ 100 % 10 = 0) ∧
    (session 32 ratOps "it/s" 100 10 1 (fun i => (i : ℚ) + 1) 100).2.length = 100 / 10 ∧
    ((9 + 1) * 10) % 2 ^ 32 = (9 + 1) * 10 ∧
    (∀ t₁ t₂ : ℚ,
      finish ratOps (session 32 ratOps "it/s" 100 10 1 (fun i => (i : ℚ) + 1) 100).1 t₁ t₂ =
        [Line.rule, Line.total_time t₂,
         Line.average_speed (ratOps.div (ratOps.mul 1 (ratOps.ofNat 100)) t₂) "it/s",
         Line.rule]) :=
  ⟨⟨by decide, by decide, by decide, by decide, by decide⟩,
   (update_reports_every_window 32 ratOps "it/s" 100 10 1 (fun i => (i : ℚ) + 1) 100
      (by decide) (by decide)).1,
   ((update_reports_every_window 32 ratOps "it/s" 100 10 1 (fun i => (i : ℚ) + 1) 100
      (by decide) (by decide)).2.2.1 9 (by decide)).2 (by decide),
   (update_reports_every_window 32 ratOps "it/s" 100 10 1 (fun i => (i : ℚ) + 1) 100
      (by decide) (by decide)).2.2.2 (by decide)⟩

/-- C1 (counterexample): with a 32-bit `size_t`, window `2 ^ 31` and `2 ^ 32`
updates, the second line logged by `update()` does not show
`done = 2 * 2 ^ 31`: the step counter has wrapped to zero. -/
theorem update_reports_done_wraps :
    (session 32 ratOps "B/s" 4294967295 2147483648 1 (fun i => (i : ℚ) + 1) 4294967296).2 =
      [Line.progress 2147483648 4294967295 1 "B/s", Line.progress 0 4294967295 1 "B/s"] ∧
    ¬ ∃ speed, (session 32 ratOps "B/s" 4294967295 2147483648 1
        (fun i => (i : ℚ) + 1) 4294967296).2.get? 1 =
      some (Line.progress (2 * 2147483648) 4294967295 speed "B/s") := by
  have h : (session 32 ratOps "B/s" 4294967295 2147483648 1 (fun i => (i : ℚ) + 1)
      4294967296).2 =
      [Line.progress 2147483648 4294967295 1 "B/s", Line.progress 0 4294967295 1 "B/s"] := by
    rw [session_spec 32 ratOps "B/s" 4294967295 2147483648 1 _ (by norm_num) (by norm_num)]
    have h2 : 4294967296 / 2147483648 = 2 := by norm_num
    simp only [h2]
    simp [List.range_succ, window_line, boundary_time, ratOps]
    norm_num
  refine ⟨h, ?_⟩
  rw [h]
  simp

/-- C2 (amended): for a window size `1 ≤ w`, after `N` updates with
`N mod w ≠ 0`, `finish()` logs exactly one progress line, showing
`done = N mod 2 ^ bits` (which is `N` when `N < 2 ^ bits`), and logs it before
the four summary lines; when `N mod w = 0` it logs the summary lines only.  The
`update()` calls have logged `N / w` lines before. -/
theorem finish_reports_ragged_window {F : Type} (bits : Nat) (ops : FloatOps F)
    (unit : String) (total w : Nat) (payload : F) (clock : Nat → F) (N : Nat) (t₁ t₂ : F)
    (hw : 1 ≤ w) (hb : w < 2 ^ bits) :
    (session bits ops unit total w payload clock N).2.length = N / w ∧
    (N % w ≠ 0 → ∃ speed,
      finish ops (session bits ops unit total w payload clock N).1 t₁ t₂ =
        Line.progress (N % 2 ^ bits) total speed unit ::
          summary ops (session bits ops unit total w payload clock N).1 t₂) ∧
    (N < 2 ^ bits → N % 2 ^ bits = N) ∧
    (N % w = 0 →
      finish ops (session bits ops unit total w payload clock N).1 t₁ t₂ =
        summary ops (session bits ops unit total w payload clock N).1 t₂) ∧
    summary ops (session bits ops unit total w payload clock N).1 t₂ =
      [Line.rule, Line.total_time t₂,
       Line.average_speed (ops.div (ops.mul payload (ops.ofNat total)) t₂) unit,
       Line.rule] := by
  refine ⟨?_, ?_, Nat.mod_eq_of_lt, ?_, ?_⟩
  · rw [session_spec bits ops unit total w payload clock hw hb]
    simp
  · intro hN
    rw [finish_eq, session_spec bits ops unit total w payload clock hw hb]
    simp only [ne_eq, hN, not_false_eq_true, if_true, List.singleton_append]
    exact ⟨_, rfl⟩
  · intro hN
    rw [finish_eq, session_spec bits ops unit total w payload clock hw hb]
    simp [hN]
  · rw [session_spec bits ops unit total w payload clock hw hb]
    rfl

/-- C2 (witness): `total_steps = 95`, window 10: nine lines from `update()`,
then `finish()` logs one line with `done = 95` followed by the summary. -/
theorem finish_reports_ragged_window_witness :
    (1 ≤ 10 ∧ 10 < 2 ^ 32 ∧ 95 % 10 ≠ 0 ∧ 95 < 2 ^ 32) ∧
    (session 32 ratOps "it/s" 95 10 1 (fun i => (i : ℚ) + 1) 95).2.length = 95 / 10 ∧
    (∃ speed,
      finish ratOps (session 32 ratOps "it/s" 95 10 1 (fun i => (i : ℚ) + 1) 95).1 96 97 =
        Line.progress (95 % 2 ^ 32) 95 speed "it/s" ::
          summary ratOps (session 32 ratOps "it/s" 95 10 1 (fun i => (i : ℚ) + 1) 95).1 97) ∧
    95 % 2 ^ 32 = 95 :=
  ⟨⟨by decide, by decide, by decide, by decide⟩,
   (finish_reports_ragged_window 32 ratOps "it/s" 95 10 1 (fun i => (i : ℚ) + 1) 95 96 97
      (by decide) (by decide)).1,
   (finish_reports_ragged_window 32 ratOps "it/s" 95 10 1 (fun i => (i : ℚ) + 1) 95 96 97
      (by decide) (by decide)).2.1 (by decide),
   (finish_reports_ragged_window 32 ratOps "it/s" 95 10 1 (fun i => (i : ℚ) + 1) 95 96 97
      (by decide) (by decide)).2.2.1 (by decide)⟩

/-- C2 (counterexample): with a 32-bit `size_t`, window 10 and `2 ^ 32 + 5`
updates, the line `finish()` logs for the trailing window shows `done = 5`, not
`done = 2 ^ 32 + 5`. -/
theorem finish_ragged_done_wraps :
    4294967301 % 10 ≠ 0 ∧
    (finish ratOps (session 32 ratOps "B/s" 4294967295 10 1 (fun i => (i : ℚ) + 1)
        4294967301).1 4294967302 4294967302).head? =
      some (Line.progress 5 4294967295 5 "B/s") ∧
    ¬ ∃ speed, (finish ratOps (session 32 ratOps "B/s" 4294967295 10 1
        (fun i => (i : ℚ) + 1) 4294967301).1 4294967302 4294967302).head? =
      some (Line.progress 4294967301 4294967295 speed "B/s") := by
  have h : (finish ratOps (session 32 ratOps "B/s" 4294967295 10 1 (fun i => (i : ℚ) + 1)
        4294967301).1 4294967302 4294967302).head? =
      some (Line.progress 5 4294967295 5 "B/s") := by
    rw [finish_eq, session_spec 32 ratOps "B/s" 4294967295 10 1 _ (by norm_num) (by norm_num)]
    have h1 : 4294967301 % 10 = 1 := by norm_num
    have h2 : 4294967301 / 10 = 429496730 := by norm_num
    have h3 : 4294967301 % 2 ^ 32 = 5 := by norm_num
    simp only [h1, h2, h3]
    simp [boundary_time, ratOps]
    norm_num
  refine ⟨by norm_num, h, ?_⟩
  rw [h]
  simp

/-- C3 (the code at the failing input): window 10, payload 1, five updates and
`finish()` one second after `start()`: the line for the ragged window of five
steps reports the rate `10 = (10 * 1) / 1`, computed with the full window size,
where the five steps done give `(5 * 1) / 1 = 5`. -/
theorem finish_ragged_rate_uses_full_window :
    finish ratOps (session 32 ratOps "B/s" 5 10 1 (fun _ => (1 : ℚ)) 5).1 1 1 =
      [Line.progress 5 5 10 "B/s", Line.rule, Line.total_time 1,
       Line.average_speed 5 "B/s", Line.rule] ∧
    ratOps.div (ratOps.mul (ratOps.ofNat 5) 1) (ratOps.sub 1 (ratOps.ofNat 0)) = 5 := by
  constructor
  · rw [finish_eq, session_spec 32 ratOps "B/s" 5 10 1 _ (by norm_num) (by norm_num)]
    simp [boundary_time, ratOps, summary]
  · simp [ratOps]

/-- C4 (amended): `update()` has no test of the elapsed time.  For every
measurer state, when the incremented window-step counter reaches the window
size, `update()` computes `_log_block_size / (now - _prev_t)` with the float
division, whatever the value of the elapsed time, logs the line, resets the
counter and moves the time baseline to `now`: nothing is deferred. -/
theorem update_reports_whatever_elapsed {F : Type} (bits : Nat) (ops : FloatOps F)
    (s : ProgressMeasurer F) (now : F)
    (hreach : (s.log_i + 1) % 2 ^ bits ≥ s.log_step) :
    (update bits ops s now).2 =
      [Line.progress ((s.current_step + 1) % 2 ^ bits) s.total_steps
        (ops.div s.log_block_size (ops.sub now s.prev_t)) s.unit] ∧
    (update bits ops s now).1.log_i = 0 ∧
    (update bits ops s now).1.prev_t = now := by
  simp [update, hreach]

/-- C4 (witness): a window of two steps closed with an elapsed time of zero. -/
theorem update_reports_whatever_elapsed_witness :
    ((session 32 ratOps "B/s" 4 2 1 (fun _ => (0 : ℚ)) 1).1.log_i + 1) % 2 ^ 32 ≥
      (session 32 ratOps "B/s" 4 2 1 (fun _ => (0 : ℚ)) 1).1.log_step ∧
    (update 32 ratOps (session 32 ratOps "B/s" 4 2 1 (fun _ => (0 : ℚ)) 1).1 0).1.log_i = 0 :=
  ⟨by decide,
   (update_reports_whatever_elapsed 32 ratOps
      (session 32 ratOps "B/s" 4 2 1 (fun _ => (0 : ℚ)) 1).1 0 (by decide)).2.1⟩

/-- C4 (counterexample): window 2, every timer reading zero.  The second
`update()` reaches the window size with an elapsed time of zero and still
divides by it and logs a line; the counter is reset, so that nothing is left
for the next window. -/
theorem update_zero_elapsed_still_reports :
    ratOps.sub 0 (session 32 ratOps "B/s" 4 2 1 (fun _ => (0 : ℚ)) 1).1.prev_t = 0 ∧
    (session 32 ratOps "B/s" 4 2 1 (fun _ => (0 : ℚ)) 1).1.log_i + 1 = 2 ∧
    (update 32 ratOps (session 32 ratOps "B/s" 4 2 1 (fun _ => (0 : ℚ)) 1).1 0).2 =
      [Line.progress 2 4 (ratOps.div 2 0) "B/s"] ∧
    (update 32 ratOps (session 32 ratOps "B/s" 4 2 1 (fun _ => (0 : ℚ)) 1).1 0).1.log_i = 0 := by
  rw [session_spec 32 ratOps "B/s" 4 2 1 _ (by norm_num) (by norm_num)]
  simp [update, boundary_time, ratOps]

/-- C5: in a session with window size `1 ≤ w`, the time baseline is the timer
reading of the previous window boundary (zero right after `start()`); an
`update()` that brings the window-step counter to `w` logs one line with the
rate `(payload * w) / (t - prev_t)`, sets the counter to zero and the baseline
to `t`; an `update()` that leaves the counter below `w` logs nothing and keeps
the baseline. -/
theorem update_window_rate {F : Type} (bits : Nat) (ops : FloatOps F)
    (unit : String) (total w : Nat) (payload : F) (clock : Nat → F) (n : Nat) (t : F)
    (hw : 1 ≤ w) (hb : w < 2 ^ bits) :
    (session bits ops unit total w payload clock n).1.prev_t =
      (if n / w = 0 then ops.ofNat 0 else clock (n / w * w - 1)) ∧
    ((session bits ops unit total w payload clock n).1.log_i + 1 = w →
      (update bits ops (session bits ops unit total w payload clock n).1 t).2 =
        [Line.progress ((n + 1) % 2 ^ bits) total
          (ops.div (ops.mul payload (ops.ofNat w))
            (ops.sub t (session bits ops unit total w payload clock n).1.prev_t)) unit] ∧
      (update bits ops (session bits ops unit total w payload clock n).1 t).1.log_i = 0 ∧
      (update bits ops (session bits ops unit total w payload clock n).1 t).1.prev_t = t) ∧
    ((session bits ops unit total w payload clock n).1.log_i + 1 < w →
      (update bits ops (session bits ops unit total w payload clock n).1 t).2 = [] ∧
      (update bits ops (session bits ops unit total w payload clock n).1 t).1.log_i =
        (session bits ops unit total w payload clock n).1.log_i + 1 ∧
      (update bits ops (session bits ops unit total w payload clock n).1 t).1.prev_t =
        (session bits ops unit total w payload clock n).1.prev_t) := by
  rw [session_spec bits ops unit total w payload clock hw hb]
  have hlt : n % w < w := Nat.mod_lt _ (by omega)
  have hmod : (n % w + 1) % 2 ^ bits = n % w + 1 := Nat.mod_eq_of_lt (by omega)
  have hcs : (n % 2 ^ bits + 1) % 2 ^ bits = (n + 1) % 2 ^ bits := by
    rw [Nat.add_mod n 1, Nat.add_mod (n % 2 ^ bits) 1, Nat.mod_mod]
  refine ⟨rfl, ?_, ?_⟩
  · intro h
    have hge : n % w + 1 ≥ w := by simp only at h; omega
    simp only [update, hmod, hge, if_true, hcs, and_self]
  · intro h
    have hnge : ¬ n % w + 1 ≥ w := by simp only at h; omega
    simp only [update, hmod, hnge, if_false, and_self]

/-- C5 (witness): window 2, payload 4096; the second update closes the first
window. -/
theorem update_window_rate_witness :
    (1 ≤ 2 ∧ 2 < 2 ^ 32 ∧
      (session 32 ratOps "B/s" 4 2 4096 (fun i => (i : ℚ) + 1) 1).1.log_i + 1 = 2) ∧
    (update 32 ratOps (session 32 ratOps "B/s" 4 2 4096 (fun i => (i : ℚ) + 1) 1).1 2).2 =
      [Line.progress ((1 + 1) % 2 ^ 32) 4
        (ratOps.div (ratOps.mul 4096 (ratOps.ofNat 2))
          (ratOps.sub 2
            (session 32 ratOps "B/s" 4 2 4096 (fun i => (i : ℚ) + 1) 1).1.prev_t)) "B/s"] ∧
    (update 32 ratOps (session 32 ratOps "B/s" 4 2 4096 (fun i => (i : ℚ) + 1) 1).1 2).1.log_i
      = 0 ∧
    (update 32 ratOps (session 32 ratOps "B/s" 4 2 4096 (fun i => (i : ℚ) + 1) 1).1 2).1.prev_t
      = 2 :=
  ⟨⟨by decide, by decide, by decide⟩,
   (update_window_rate 32 ratOps "B/s" 4 2 4096 (fun i => (i : ℚ) + 1) 1 2
      (by decide) (by decide)).2.1 (by decide)⟩

/-- C6 (amended): the final rate logged by `finish()` is
`(payload * total_steps) / total_time`, where `total_steps` is the value given
to the constructor and `total_time` the timer reading taken after the ragged
window, whatever the number of `update()` calls; it is the payload of the
updates made divided by the time when that number is `total_steps`. -/
theorem finish_average_rate {F : Type} (bits : Nat) (ops : FloatOps F)
    (unit : String) (total w : Nat) (payload : F) (clock : Nat → F) (N : Nat) (t₁ t₂ : F) :
    (∃ pre, (∀ l ∈ pre, ∃ d tot sp u, l = Line.progress d tot sp u) ∧
      finish ops (session bits ops unit total w payload clock N).1 t₁ t₂ =
        pre ++ [Line.rule, Line.total_time t₂,
          Line.average_speed (ops.div (ops.mul payload (ops.ofNat total)) t₂) unit,
          Line.rule]) ∧
    (N = total →
      ops.div (ops.mul payload (ops.ofNat total)) t₂ =
        ops.div (ops.mul payload (ops.ofNat N)) t₂) := by
  obtain ⟨hu, ht, _, hb, _⟩ := session_config bits ops unit total w payload clock N
  refine ⟨⟨_, ?_, by rw [finish_eq, summary, hu, ht, hb]⟩, fun h => by rw [h]⟩
  intro l hl
  split at hl
  · simp only [List.mem_singleton] at hl
    exact ⟨_, _, _, _, hl⟩
  · simp at hl

/-- C6 (witness): 100 updates of a session constructed with `total_steps = 100`,
payload 1, finished at time 10. -/
theorem finish_average_rate_witness :
    100 = 100 ∧
    (∃ pre, (∀ l ∈ pre, ∃ d tot sp u, l = Line.progress d tot sp u) ∧
      finish ratOps (session 32 ratOps "it/s" 100 10 1 (fun i => (i : ℚ) + 1) 100).1 10 10 =
        pre ++ [Line.rule, Line.total_time 10,
          Line.average_speed (ratOps.div (ratOps.mul 1 (ratOps.ofNat 100)) 10) "it/s",
          Line.rule]) ∧
    ratOps.div (ratOps.mul 1 (ratOps.ofNat 100)) 10 =
      ratOps.div (ratOps.mul 1 (ratOps.ofNat 100)) 10 :=
  ⟨rfl,
   (finish_average_rate 32 ratOps "it/s" 100 10 1 (fun i => (i : ℚ) + 1) 100 10 10).1,
   (finish_average_rate 32 ratOps "it/s" 100 10 1 (fun i => (i : ℚ) + 1) 100 10 10).2 rfl⟩

/-- C6 (counterexample): a session constructed with `total_steps = 100` of which
50 updates are made, payload 1, finished at time 10: the rate logged is
`(1 * 100) / 10 = 10`, not the `(1 * 50) / 10 = 5` of the steps completed. -/
theorem finish_average_ignores_updates_made :
    finish ratOps (session 32 ratOps "it/s" 100 10 1 (fun i => (i : ℚ) / 8) 50).1 10 10 =
      [Line.rule, Line.total_time 10, Line.average_speed 10 "it/s", Line.rule] ∧
    Line.average_speed (ratOps.div (ratOps.mul 1 (ratOps.ofNat 50)) 10) "it/s" ∉
      finish ratOps (session 32 ratOps "it/s" 100 10 1 (fun i => (i : ℚ) / 8) 50).1 10 10 := by
  have h : finish ratOps (session 32 ratOps "it/s" 100 10 1 (fun i => (i : ℚ) / 8) 50).1 10 10 =
      [Line.rule, Line.total_time 10, Line.average_speed 10 "it/s", Line.rule] := by
    rw [finish_eq, session_spec 32 ratOps "it/s" 100 10 1 _ (by norm_num) (by norm_num)]
    simp [summary, ratOps]
    norm_num
  refine ⟨h, ?_⟩
  rw [h]
  simp [ratOps]
  norm_num


/-! ## Loops with a halting body -/

theorem for_range_succ {σ : Type} (n : Nat) (body : Nat → Run σ → Run σ) (r : Run σ) :
    for_range (n + 1) body r = next (body n) (for_range n body r) := by
  simp [for_range, List.range_succ, List.foldl_append]

theorem for_range_induction {σ : Type} (n : Nat) (body : Nat → Run σ → Run σ) (r : Run σ)
    (P : Nat → Run σ → Prop) (h0 : P 0 r)
    (hs : ∀ i r, i < n → P i r → P (i + 1) (next (body i) r)) :
    P n (for_range n body r) := by
  induction n with
  | zero => simpa [for_range] using h0
  | succ n ih =>
    rw [for_range_succ]
    exact hs n _ (Nat.lt_succ_self n) (ih (fun i r hi h => hs i r (Nat.lt_succ_of_lt hi) h))

theorem guarded_next {σ : Type} (f : Run σ → Run σ) : Guarded (next f) := by
  intro r h
  simp [next, h]

theorem guarded_for_range {σ : Type} (n : Nat) (body : Nat → Run σ → Run σ) :
    Guarded (for_range n body) := by
  intro r h
  apply for_range_induction n body r (fun _ r' => r' = r) rfl
  intro i r' _ hr'
  rw [hr']
  exact guarded_next _ r h

theorem guarded_comp {σ : Type} {f g : Run σ → Run σ} (hf : Guarded f) (hg : Guarded g) :
    Guarded (fun r => g (f r)) := by
  intro r h
  show g (f r) = r
  rw [hf r h, hg r h]

/-! ## What a step adds to the view of a run that goes on -/

theorem view_append (a b : List Ev) : view (a ++ b) = view a ++ view b := by
  simp [view]

theorem grows_apply {σ : Type} {f : Run σ → Run σ} {pat : List Transfer}
    (hf : Grows f pat) (hg : Guarded f) (r : Run σ) (h : (f r).halted = false) :
    r.halted = false ∧ view (f r).trace = view r.trace ++ pat := by
  have hr : r.halted = false := by
    cases hh : r.halted with
    | false => rfl
    | true => rw [hg r hh] at h; rw [hh] at h; exact h
  exact ⟨hr, hf r hr h⟩

theorem grows_next {σ : Type} {f : Run σ → Run σ} {pat : List Transfer}
    (hf : Grows f pat) : Grows (next f) pat := by
  intro r hr h
  simp only [next, hr] at h ⊢
  exact hf r hr h

theorem grows_comp {σ : Type} {f g : Run σ → Run σ} {p q : List Transfer}
    (hf : Grows f p) (hg : Grows g q) (hgg : Guarded g) :
    Grows (fun r => g (f r)) (p ++ q) := by
  intro r hr h
  obtain ⟨h1, e1⟩ := grows_apply hg hgg (f r) h
  show view (g (f r)).trace = _
  rw [e1, hf r hr h1, List.append_assoc]

theorem grows_emit {σ : Type} (e : Ev) :
    Grows (emit e : Run σ → Run σ) (view [e]) := by
  intro r _ _
  simp [emit, view_append]

theorem grows_for_range {σ : Type} (n : Nat) (body : Nat → Run σ → Run σ)
    (pat : List Transfer) (hb : ∀ i, Grows (body i) pat) :
    Grows (for_range n body) (repeat_list n pat) := by
  intro r hr
  apply for_range_induction n body r
    (fun i r' => r'.halted = false → view r'.trace = view r.trace ++ repeat_list i pat)
  · intro _
    simp [repeat_list]
  · intro i r' _ ih h
    obtain ⟨h1, e1⟩ := grows_apply (grows_next (hb i)) (guarded_next _) r' h
    rw [e1, ih h1, repeat_list, List.append_assoc]

theorem repeat_list_mul {α : Type} (m n : Nat) (pat : List α) :
    repeat_list m (repeat_list n pat) = repeat_list (n * m) pat := by
  have hadd : ∀ a b : Nat, repeat_list (a + b) pat = repeat_list a pat ++ repeat_list b pat := by
    intro a b
    induction b with
    | zero => simp [repeat_list]
    | succ b ih => rw [← Nat.add_assoc, repeat_list, ih, repeat_list, List.append_assoc]
  induction m with
  | zero => simp [repeat_list]
  | succ m ih => rw [repeat_list, ih, Nat.mul_succ, hadd]

theorem grows_remove_previous {σ : Type} (env : FileSystem σ) (test_dir : String) :
    Grows (remove_previous env test_dir) [] := by
  intro r _ h
  unfold remove_previous at h ⊢
  simp only [emit, check_error, mbed_error] at h ⊢
  split at h
  · split at h
    · simp at h
    · rename_i h1 h2
      simp [h1, h2, view_append, view, io_view]
  · rename_i h1
    simp [h1, view_append, view, io_view]

theorem grows_create_test_dir {σ : Type} (env : FileSystem σ) (test_dir : String) :
    Grows (create_test_dir env test_dir) [] := by
  intro r _ h
  unfold create_test_dir at h ⊢
  simp only [emit, check_error, mbed_error] at h ⊢
  split at h
  · simp at h
  · rename_i h1
    simp [h1, view_append, view, io_view]

theorem grows_remove_test_dir {σ : Type} (env : FileSystem σ) (test_dir : String) :
    Grows (remove_test_dir env test_dir) [] := by
  intro r _ _
  simp [remove_test_dir, emit, view_append, view, io_view]

theorem grows_open_files {σ : Type} (env : FileSystem σ) (test_dir mode : String)
    (round_i files_per_round : Nat) :
    Grows (open_files env test_dir mode round_i files_per_round) [] := by
  have h := grows_for_range files_per_round (fun file_no (r : Run σ) =>
    let filename := "test_" ++ toString round_i ++ "_" ++ toString file_no ++ ".txt"
    let path := env.append_path test_dir filename
    let op := env.fopen r.fs path mode
    let r := { r with fs := op.2, files := Function.update r.files file_no op.1 }.emit
      (Ev.fopen path mode op.1)
    if r.files file_no = 0 then r.mbed_error "Fail to create file" else r) [] (by
      intro i r _ h
      simp only [emit, mbed_error] at h ⊢
      split at h
      · simp at h
      · rename_i h1
        simp only [h1, if_false]
        simp [view_append, view, io_view])
  have e : ∀ n, repeat_list n ([] : List Transfer) = [] := by
    intro n
    induction n with
    | zero => rfl
    | succ n ih => simp [repeat_list, ih]
  rw [e] at h
  exact h

theorem grows_close_files {σ : Type} (env : FileSystem σ) (files_per_round : Nat) :
    Grows (close_files env files_per_round) [] := by
  have h := grows_for_range files_per_round (fun file_no (r : Run σ) =>
    let cl := env.fclose r.fs (r.files file_no)
    let r := { r with fs := cl.2 }.emit (Ev.fclose (r.files file_no) cl.1)
    if cl.1 ≠ 0 then r.mbed_error "Fail to close file" else r) [] (by
      intro i r _ h
      simp only [emit, mbed_error] at h ⊢
      split at h
      · simp at h
      · rename_i h1
        simp only [h1, if_false]
        simp [view_append, view, io_view])
  have e : ∀ n, repeat_list n ([] : List Transfer) = [] := by
    intro n
    induction n with
    | zero => rfl
    | succ n ih => simp [repeat_list, ih]
  rw [e] at h
  exact h

theorem grows_write_blocks {σ : Type} (env : FileSystem σ) (buff : List Nat)
    (block_size blocks_per_file files_per_round : Nat) :
    Grows (write_blocks env buff block_size blocks_per_file files_per_round)
      (repeat_list (files_per_round * blocks_per_file)
        [Transfer.wrote block_size, Transfer.update Measurer.write_measurer]) := by
  rw [← repeat_list_mul]
  apply grows_for_range
  intro _
  apply grows_for_range
  intro i r _ h
  simp only [emit, mbed_error] at h ⊢
  split at h
  · simp at h
  · rename_i h1
    simp only [h1, if_false]
    simp only [ne_eq, not_not] at h1
    simp [view_append, view, io_view, h1]

theorem grows_read_blocks {σ : Type} (env : FileSystem σ)
    (block_size blocks_per_file files_per_round : Nat) :
    Grows (read_blocks env block_size blocks_per_file files_per_round)
      (repeat_list (files_per_round * blocks_per_file)
        [Transfer.read block_size, Transfer.update Measurer.read_measurer]) := by
  rw [← repeat_list_mul]
  apply grows_for_range
  intro _
  apply grows_for_range
  intro i r _ h
  simp only [emit, mbed_error] at h ⊢
  split at h
  · simp at h
  · rename_i h1
    simp only [h1, if_false]
    simp only [ne_eq, not_not] at h1
    simp [view_append, view, io_view, h1]

theorem grows_write_rounds {σ : Type} (env : FileSystem σ) (test_dir : String)
    (buff : List Nat) (block_size blocks_per_file files_per_round n_rounds : Nat) :
    Grows (write_rounds env test_dir buff block_size blocks_per_file files_per_round n_rounds)
      (repeat_list (files_per_round * blocks_per_file * n_rounds)
        [Transfer.wrote block_size, Transfer.update Measurer.write_measurer]) := by
  rw [← repeat_list_mul]
  apply grows_for_range
  intro round_i
  have h := grows_comp (grows_comp (grows_comp
    (grows_emit (Ev.round_begin Measurer.write_measurer round_i))
    (grows_open_files env test_dir "wb" round_i files_per_round) (guarded_for_range _ _))
    (grows_write_blocks env buff block_size blocks_per_file files_per_round)
    (guarded_for_range _ _))
    (grows_close_files env files_per_round) (guarded_for_range _ _)
  simpa [view, io_view] using h

theorem grows_read_rounds {σ : Type} (env : FileSystem σ) (test_dir : String)
    (block_size blocks_per_file files_per_round n_rounds : Nat) :
    Grows (read_rounds env test_dir block_size blocks_per_file files_per_round n_rounds)
      (repeat_list (files_per_round * blocks_per_file * n_rounds)
        [Transfer.read block_size, Transfer.update Measurer.read_measurer]) := by
  rw [← repeat_list_mul]
  apply grows_for_range
  intro round_i
  have h := grows_comp (grows_comp (grows_comp
    (grows_emit (Ev.round_begin Measurer.read_measurer round_i))
    (grows_open_files env test_dir "rb" round_i files_per_round) (guarded_for_range _ _))
    (grows_read_blocks env block_size blocks_per_file files_per_round)
    (guarded_for_range _ _))
    (grows_close_files env files_per_round) (guarded_for_range _ _)
  simpa [view, io_view] using h

/-- The view of a write/read run that is not halted. -/
theorem view_write_read {σ : Type} (bits : Nat) (env : FileSystem σ) (fs : σ)
    (test_dir : String) (cleanup_dir : Bool)
    (block_size blocks_per_file files_per_round n_rounds : Nat)
    (hrun : (measure_write_read_speed bits env fs test_dir cleanup_dir block_size
      blocks_per_file files_per_round n_rounds).halted = false) :
    view (measure_write_read_speed bits env fs test_dir cleanup_dir block_size
      blocks_per_file files_per_round n_rounds).trace =
      Transfer.constructed Measurer.write_measurer
          (total_blocks bits blocks_per_file files_per_round n_rounds) ::
        repeat_list (files_per_round * blocks_per_file * n_rounds)
          [Transfer.wrote block_size, Transfer.update Measurer.write_measurer] ++
      Transfer.constructed Measurer.read_measurer
          (total_blocks bits blocks_per_file files_per_round n_rounds) ::
        repeat_list (files_per_round * blocks_per_file * n_rounds)
          [Transfer.read block_size, Transfer.update Measurer.read_measurer] := by
  unfold measure_write_read_speed at hrun ⊢
  simp only at hrun ⊢
  obtain ⟨h13, e13⟩ := grows_apply (grows_next (grows_remove_test_dir env test_dir))
    (guarded_next _) _ hrun
  obtain ⟨h12, e12⟩ := grows_apply (grows_next (grows_emit Ev.delete_files))
    (guarded_next _) _ h13
  obtain ⟨h11, e11⟩ := grows_apply
    (grows_next (grows_emit (Ev.pm_finish Measurer.read_measurer))) (guarded_next _) _ h12
  obtain ⟨h10, e10⟩ := grows_apply
    (grows_read_rounds env test_dir block_size blocks_per_file files_per_round n_rounds)
    (guarded_for_range _ _) _ h11
  obtain ⟨h9, e9⟩ := grows_apply
    (grows_next (grows_emit (Ev.pm_start Measurer.read_measurer))) (guarded_next _) _ h10
  obtain ⟨h8, e8⟩ := grows_apply
    (grows_next (grows_emit (Ev.pm_new Measurer.read_measurer "B/s"
      (total_blocks bits blocks_per_file files_per_round n_rounds) 64 block_size)))
    (guarded_next _) _ h9
  obtain ⟨h7, e7⟩ := grows_apply
    (grows_next (grows_emit (Ev.pm_finish Measurer.write_measurer))) (guarded_next _) _ h8
  obtain ⟨h6, e6⟩ := grows_apply
    (grows_write_rounds env test_dir (List.replicate block_size 66) block_size
      blocks_per_file files_per_round n_rounds)
    (guarded_for_range _ _) _ h7
  obtain ⟨h5, e5⟩ := grows_apply
    (grows_next (grows_emit (Ev.pm_start Measurer.write_measurer))) (guarded_next _) _ h6
  obtain ⟨h4, e4⟩ := grows_apply
    (grows_next (grows_emit (Ev.pm_new Measurer.write_measurer "B/s"
      (total_blocks bits blocks_per_file files_per_round n_rounds) 64 block_size)))
    (guarded_next _) _ h5
  obtain ⟨h3, e3⟩ := grows_apply (grows_next (grows_create_test_dir env test_dir))
    (guarded_next _) _ h4
  have e2 := grows_remove_previous env test_dir (Run.init fs) rfl h3
  rw [e13, e12, e11, e10, e9, e8, e7, e6, e5, e4, e3, e2]
  simp [view, io_view, Run.init]

/-! ## Counting in a view -/

theorem update_count_view (m : Measurer) (tr : List Ev) :
    update_count m tr = (view tr).count (Transfer.update m) := by
  induction tr with
  | nil => rfl
  | cons e tr ih =>
    unfold update_count at ih ⊢
    cases e <;> simp [view, io_view, List.count_cons, List.filterMap_cons] at ih ⊢ <;>
      simp [ih]

theorem bytes_written_view (tr : List Ev) :
    bytes_written tr = ((view tr).map Transfer.written).sum := by
  induction tr with
  | nil => rfl
  | cons e tr ih =>
    unfold bytes_written at ih ⊢
    cases e <;>
      simp [view, io_view, List.filterMap_cons, Ev.written, Transfer.written] at ih ⊢ <;>
      exact ih

theorem bytes_read_view (tr : List Ev) :
    bytes_read tr = ((view tr).map Transfer.bytes_read).sum := by
  induction tr with
  | nil => rfl
  | cons e tr ih =>
    unfold bytes_read at ih ⊢
    cases e <;>
      simp [view, io_view, List.filterMap_cons, Ev.bytes_read, Transfer.bytes_read] at ih ⊢ <;>
      exact ih

theorem count_repeat_list {α : Type} [DecidableEq α] (a : α) (n : Nat) (pat : List α) :
    (repeat_list n pat).count a = n * pat.count a := by
  induction n with
  | zero => simp [repeat_list]
  | succ n ih => rw [repeat_list, List.count_append, ih, Nat.succ_mul]

theorem sum_repeat_list {α : Type} (f : α → Nat) (n : Nat) (pat : List α) :
    ((repeat_list n pat).map f).sum = n * (pat.map f).sum := by
  induction n with
  | zero => simp [repeat_list]
  | succ n ih => rw [repeat_list, List.map_append, List.sum_append, ih, Nat.succ_mul]

/-! ## Runs in the world where every call succeeds -/

theorem completes_next {σ : Type} {f : Run σ → Run σ} (hf : Completes f) :
    Completes (next f) := by
  intro r hr
  simp only [next, hr]
  exact hf r hr

theorem completes_for_range {σ : Type} (n : Nat) (body : Nat → Run σ → Run σ)
    (hb : ∀ i, Completes (body i)) : Completes (for_range n body) := by
  intro r hr
  apply for_range_induction n body r (fun _ r' => r'.halted = false) hr
  intro i r' _ h
  exact completes_next (hb i) r' h

theorem completes_emit {σ : Type} (e : Ev) : Completes (emit e : Run σ → Run σ) := by
  intro r hr
  simpa [emit] using hr

theorem healthy_completes (bits : Nat) (fs : Nat) (test_dir : String) (cleanup_dir : Bool)
    (block_size blocks_per_file files_per_round n_rounds : Nat) :
    (measure_write_read_speed bits healthy fs test_dir cleanup_dir block_size
      blocks_per_file files_per_round n_rounds).halted = false := by
  have hopen : ∀ mode round_i, Completes (open_files healthy test_dir mode round_i
      files_per_round) := by
    intro mode round_i
    apply completes_for_range
    intro i r hr
    simp [emit, mbed_error, healthy, failing_write_data, hr]
  have hclose : Completes (close_files healthy files_per_round) := by
    apply completes_for_range
    intro i r hr
    simp [emit, mbed_error, healthy, failing_write_data, hr]
  have hwrite : Completes (write_blocks healthy (List.replicate block_size 66) block_size
      blocks_per_file files_per_round) := by
    apply completes_for_range
    intro _
    apply completes_for_range
    intro i r hr
    simp [emit, mbed_error, healthy, failing_write_data, hr]
  have hread : Completes (read_blocks healthy block_size blocks_per_file files_per_round) := by
    apply completes_for_range
    intro _
    apply completes_for_range
    intro i r hr
    simp [emit, mbed_error, healthy, failing_write_data, hr]
  have hwr : Completes (write_rounds healthy test_dir (List.replicate block_size 66)
      block_size blocks_per_file files_per_round n_rounds) := by
    apply completes_for_range
    intro i r hr
    exact hclose _ (hwrite _ (hopen _ _ _ (completes_emit _ r hr)))
  have hrr : Completes (read_rounds healthy test_dir block_size blocks_per_file
      files_per_round n_rounds) := by
    apply completes_for_range
    intro i r hr
    exact hclose _ (hread _ (hopen _ _ _ (completes_emit _ r hr)))
  have h1 : (remove_previous healthy test_dir (Run.init fs)).halted = false := by
    simp [remove_previous, emit, healthy, failing_write_data, Run.init]
  have h2 : Completes (create_test_dir healthy test_dir) := by
    intro r hr
    simp [create_test_dir, emit, check_error, healthy, failing_write_data, hr]
  have h3 : Completes (remove_test_dir healthy test_dir) := by
    intro r hr
    simp [remove_test_dir, emit, hr]
  unfold measure_write_read_speed
  simp only
  exact completes_next h3 _ (completes_next (completes_emit _) _
    (completes_next (completes_emit _) _ (hrr _
    (completes_next (completes_emit _) _ (completes_next (completes_emit _) _
    (completes_next (completes_emit _) _ (hwr _
    (completes_next (completes_emit _) _ (completes_next (completes_emit _) _
    (completes_next h2 _ h1))))))))))

/-- The counts of a write/read run that is not halted. -/
theorem write_read_counts {σ : Type} (bits : Nat) (env : FileSystem σ) (fs : σ)
    (test_dir : String) (cleanup_dir : Bool)
    (block_size blocks_per_file files_per_round n_rounds : Nat)
    (hrun : (measure_write_read_speed bits env fs test_dir cleanup_dir block_size
      blocks_per_file files_per_round n_rounds).halted = false) :
    update_count Measurer.write_measurer (measure_write_read_speed bits env fs test_dir
      cleanup_dir block_size blocks_per_file files_per_round n_rounds).trace =
      blocks_per_file * files_per_round * n_rounds ∧
    update_count Measurer.read_measurer (measure_write_read_speed bits env fs test_dir
      cleanup_dir block_size blocks_per_file files_per_round n_rounds).trace =
      blocks_per_file * files_per_round * n_rounds ∧
    bytes_written (measure_write_read_speed bits env fs test_dir cleanup_dir block_size
      blocks_per_file files_per_round n_rounds).trace =
      block_size * blocks_per_file * files_per_round * n_rounds ∧
    bytes_read (measure_write_read_speed bits env fs test_dir cleanup_dir block_size
      blocks_per_file files_per_round n_rounds).trace =
      block_size * blocks_per_file * files_per_round * n_rounds ∧
    (view (measure_write_read_speed bits env fs test_dir cleanup_dir block_size
      blocks_per_file files_per_round n_rounds).trace).head? =
      some (Transfer.constructed Measurer.write_measurer
        (total_blocks bits blocks_per_file files_per_round n_rounds)) := by
  have hv := view_write_read bits env fs test_dir cleanup_dir block_size blocks_per_file
    files_per_round n_rounds hrun
  have hp : files_per_round * blocks_per_file * n_rounds =
      blocks_per_file * files_per_round * n_rounds := by ring
  rw [hp] at hv
  refine ⟨?_, ?_, ?_, ?_, ?_⟩
  · rw [update_count_view, hv]
    simp [List.count_cons, List.count_append, count_repeat_list]
  · rw [update_count_view, hv]
    simp [List.count_cons, List.count_append, count_repeat_list]
  · rw [bytes_written_view, hv]
    simp [sum_repeat_list, Transfer.written]
    ring
  · rw [bytes_read_view, hv]
    simp [sum_repeat_list, Transfer.bytes_read]
    ring
  · rw [hv]
    rfl

theorem total_blocks_eq (bits blocks_per_file files_per_round n_rounds : Nat) :
    total_blocks bits blocks_per_file files_per_round n_rounds =
      (blocks_per_file * files_per_round * n_rounds) % 2 ^ bits := by
  unfold total_blocks
  rw [Nat.mod_mul_mod]
  congr 1
  ring

/-! ## Claims about the write/read test -/

/-- C8 (amended): in a write/read run that no failed call has halted, the write
phase is a sequence of `blocks_per_file * files_per_round * n_rounds` block
writes of `block_size` bytes, each followed by one `update()` of the write
measurer, then the read phase is the same number of block reads, each followed
by one `update()` of the read measurer; the bytes written and the bytes read
both are `block_size` times that number.  Each measurer is constructed with the
`size_t` product, which is that number reduced modulo `2 ^ bits`, and is that
number when it is below `2 ^ bits`. -/
theorem write_read_update_per_block {σ : Type} (bits : Nat) (env : FileSystem σ) (fs : σ)
    (test_dir : String) (cleanup_dir : Bool)
    (block_size blocks_per_file files_per_round n_rounds : Nat)
    (hrun : (measure_write_read_speed bits env fs test_dir cleanup_dir block_size
      blocks_per_file files_per_round n_rounds).halted = false) :
    view (measure_write_read_speed bits env fs test_dir cleanup_dir block_size
      blocks_per_file files_per_round n_rounds).trace =
      Transfer.constructed Measurer.write_measurer
          ((blocks_per_file * files_per_round * n_rounds) % 2 ^ bits) ::
        repeat_list (blocks_per_file * files_per_round * n_rounds)
          [Transfer.wrote block_size, Transfer.update Measurer.write_measurer] ++
      Transfer.constructed Measurer.read_measurer
          ((blocks_per_file * files_per_round * n_rounds) % 2 ^ bits) ::
        repeat_list (blocks_per_file * files_per_round * n_rounds)
          [Transfer.read block_size, Transfer.update Measurer.read_measurer] ∧
    update_count Measurer.write_measurer (measure_write_read_speed bits env fs test_dir
      cleanup_dir block_size blocks_per_file files_per_round n_rounds).trace =
      blocks_per_file * files_per_round * n_rounds ∧
    update_count Measurer.read_measurer (measure_write_read_speed bits env fs test_dir
      cleanup_dir block_size blocks_per_file files_per_round n_rounds).trace =
      blocks_per_file * files_per_round * n_rounds ∧
    bytes_written (measure_write_read_speed bits env fs test_dir cleanup_dir block_size
      blocks_per_file files_per_round n_rounds).trace =
      block_size * blocks_per_file * files_per_round * n_rounds ∧
    bytes_read (measure_write_read_speed bits env fs test_dir cleanup_dir block_size
      blocks_per_file files_per_round n_rounds).trace =
      block_size * blocks_per_file * files_per_round * n_rounds ∧
    (blocks_per_file * files_per_round * n_rounds < 2 ^ bits →
      (blocks_per_file * files_per_round * n_rounds) % 2 ^ bits =
        blocks_per_file * files_per_round * n_rounds) := by
  have hv := view_write_read bits env fs test_dir cleanup_dir block_size blocks_per_file
    files_per_round n_rounds hrun
  have hp : files_per_round * blocks_per_file * n_rounds =
      blocks_per_file * files_per_round * n_rounds := by ring
  rw [hp, total_blocks_eq] at hv
  obtain ⟨c1, c2, c3, c4, _⟩ := write_read_counts bits env fs test_dir cleanup_dir block_size
    blocks_per_file files_per_round n_rounds hrun
  exact ⟨hv, c1, c2, c3, c4, Nat.mod_eq_of_lt⟩

/-- C8 (witness): the reference scenario, `block_size = 4096`,
`blocks_per_file = 128`, `files_per_round = 4`, `n_rounds = 2`, in the world
where every call succeeds: 1024 updates per phase and 4194304 bytes each way. -/
theorem write_read_update_per_block_witness :
    (measure_write_read_speed 32 healthy 0 "/fat/wrt_demo_dir" true 4096 128 4 2).halted
      = false ∧
    update_count Measurer.write_measurer
      (measure_write_read_speed 32 healthy 0 "/fat/wrt_demo_dir" true 4096 128 4 2).trace =
      128 * 4 * 2 ∧
    bytes_written
      (measure_write_read_speed 32 healthy 0 "/fat/wrt_demo_dir" true 4096 128 4 2).trace =
      4096 * 128 * 4 * 2 ∧
    bytes_read
      (measure_write_read_speed 32 healthy 0 "/fat/wrt_demo_dir" true 4096 128 4 2).trace =
      4096 * 128 * 4 * 2 ∧
    4096 * 128 * 4 * 2 = 4194304 :=
  ⟨healthy_completes 32 0 "/fat/wrt_demo_dir" true 4096 128 4 2,
   (write_read_update_per_block 32 healthy 0 "/fat/wrt_demo_dir" true 4096 128 4 2
      (healthy_completes 32 0 "/fat/wrt_demo_dir" true 4096 128 4 2)).2.1,
   (write_read_update_per_block 32 healthy 0 "/fat/wrt_demo_dir" true 4096 128 4 2
      (healthy_completes 32 0 "/fat/wrt_demo_dir" true 4096 128 4 2)).2.2.2.1,
   (write_read_update_per_block 32 healthy 0 "/fat/wrt_demo_dir" true 4096 128 4 2
      (healthy_completes 32 0 "/fat/wrt_demo_dir" true 4096 128 4 2)).2.2.2.2.1,
   by decide⟩

/-- C8 (counterexample): with a 32-bit `size_t`, `blocks_per_file = 65536`,
`files_per_round = 65536` and `n_rounds = 1` in the world where every call
succeeds, the write phase makes `2 ^ 32` updates, and its measurer was
constructed with `total_steps = 0`. -/
theorem write_read_total_steps_wraps :
    (measure_write_read_speed 32 healthy 0 "/fat/wrt_demo_dir" true 1 65536 65536 1).halted
      = false ∧
    update_count Measurer.write_measurer
      (measure_write_read_speed 32 healthy 0 "/fat/wrt_demo_dir" true 1 65536 65536 1).trace =
      4294967296 ∧
    (view (measure_write_read_speed 32 healthy 0 "/fat/wrt_demo_dir" true 1 65536 65536
      1).trace).head? = some (Transfer.constructed Measurer.write_measurer 0) := by
  have hc := healthy_completes 32 0 "/fat/wrt_demo_dir" true 1 65536 65536 1
  obtain ⟨c1, _, _, _, c5⟩ :=
    write_read_counts 32 healthy 0 "/fat/wrt_demo_dir" true 1 65536 65536 1 hc
  refine ⟨hc, ?_, ?_⟩
  · rw [c1]
  · rw [c5, total_blocks_eq]
    have h0 : 65536 * 65536 * 1 % 2 ^ 32 = 0 := by norm_num
    rw [h0]

/-! ## The handle discipline along a run -/

theorem open_handles_snoc (tr : List Ev) (e : Ev) :
    open_handles (tr ++ [e]) = open_step (open_handles tr) e := by
  simp [open_handles, List.foldl_append]

theorem handles_nil (limit : Nat) : HandlesOK limit [] := by
  intro pre e h
  have := List.prefix_nil.mp h
  simp at this

theorem handles_snoc {limit : Nat} {tr : List Ev} {e : Ev} (h : HandlesOK limit tr)
    (hle : (open_handles (tr ++ [e])).length ≤ limit)
    (hcp : e.is_checkpoint = true → open_handles tr = []) :
    HandlesOK limit (tr ++ [e]) := by
  intro pre x hp
  rcases List.prefix_concat_iff.mp hp with heq | hpre
  · obtain ⟨h1, h2⟩ := List.append_inj' heq rfl
    have h3 : x = e := by simpa using h2
    subst h1
    subst h3
    exact ⟨hle, hcp⟩
  · exact h pre x hpre

theorem handles_bound {limit : Nat} {tr : List Ev} (h : HandlesOK limit tr) :
    (open_handles tr).length ≤ limit := by
  rcases List.eq_nil_or_concat tr with hnil | ⟨pre, e, hc⟩
  · rw [hnil]
    simp [open_handles]
  · rw [hc, List.concat_eq_append]
    rw [hc, List.concat_eq_append] at h
    exact (h pre e (List.prefix_refl _)).1

theorem handles_snoc_neutral {limit : Nat} {tr : List Ev} {e : Ev} (hn : Neutral e)
    (h : HandlesOK limit tr) : HandlesOK limit (tr ++ [e]) := by
  apply handles_snoc h
  · rw [open_handles_snoc, hn.1]
    exact handles_bound h
  · intro hc
    rw [hn.2] at hc
    cases hc

theorem keeps_apply {σ : Type} {limit : Nat} {f : Run σ → Run σ}
    {g g' : (Nat → Nat) → List Nat}
    (hk : Keeps limit f g g') (hg : Guarded f) (r : Run σ) (h : Ok limit g r) :
    Ok limit g' (f r) := by
  cases hh : r.halted with
  | false => exact hk r hh h
  | true =>
    rw [hg r hh]
    exact ⟨h.1, fun h2 => by rw [hh] at h2; cases h2⟩

theorem keeps_next {σ : Type} {limit : Nat} {f : Run σ → Run σ}
    {g g' : (Nat → Nat) → List Nat}
    (hk : Keeps limit f g g') : Keeps limit (next f) g g' := by
  intro r hr h
  simp only [next, hr]
  exact hk r hr h

theorem keeps_for_range {σ : Type} {limit : Nat} (n : Nat) (body : Nat → Run σ → Run σ)
    (g : Nat → (Nat → Nat) → List Nat)
    (hb : ∀ i, i < n → Keeps limit (body i) (g i) (g (i + 1))) :
    Keeps limit (for_range n body) (g 0) (g n) := by
  intro r _ h
  apply for_range_induction n body r (fun i r' => Ok limit (g i) r') h
  intro i r' hi h'
  exact keeps_apply (keeps_next (hb i hi)) (guarded_next _) r' h'

theorem keeps_comp {σ : Type} {limit : Nat} {f k : Run σ → Run σ}
    {g g₁ g₂ : (Nat → Nat) → List Nat}
    (hf : Keeps limit f g g₁) (hk : Keeps limit k g₁ g₂) (hkg : Guarded k) :
    Keeps limit (fun r => k (f r)) g g₂ := by
  intro r hr h
  exact keeps_apply hk hkg (f r) (hf r hr h)

theorem keeps_for_range_const {σ : Type} {limit : Nat} (n : Nat)
    (body : Nat → Run σ → Run σ) (g : (Nat → Nat) → List Nat)
    (hb : ∀ i, Keeps limit (body i) g g) :
    Keeps limit (for_range n body) g g :=
  keeps_for_range n body (fun _ => g) (fun i _ => hb i)

/-- One more event, with a new state of the world and of the array. -/
theorem ok_step {σ : Type} {limit : Nat} {g k : (Nat → Nat) → List Nat} {r : Run σ}
    {e : Ev} (w : σ) (a : Nat → Nat)
    (h : Ok limit g r) (hr : r.halted = false)
    (hstep : open_step (g r.files) e = k a)
    (hle : (k a).length ≤ limit) (hcp : e.is_checkpoint = true → g r.files = []) :
    Ok limit k ({ r with fs := w, files := a }.emit e) := by
  have hc := h.2 hr
  constructor
  · apply handles_snoc h.1
    · rw [open_handles_snoc, hc, hstep]
      exact hle
    · intro h1
      rw [hc]
      exact hcp h1
  · intro _
    show open_handles (r.trace ++ [e]) = k a
    rw [open_handles_snoc, hc, hstep]

theorem ok_emit_neutral {σ : Type} {limit : Nat} {g : (Nat → Nat) → List Nat} {r : Run σ}
    {e : Ev} (hn : Neutral e) (h : Ok limit g r) : Ok limit g (r.emit e) := by
  constructor
  · exact handles_snoc_neutral hn h.1
  · intro hh
    show open_handles (r.trace ++ [e]) = g r.files
    rw [open_handles_snoc, hn.1]
    exact h.2 hh

theorem ok_mbed_error {σ : Type} {limit : Nat} {g : (Nat → Nat) → List Nat} {r : Run σ}
    (msg : String) (h : HandlesOK limit r.trace) : Ok limit g (r.mbed_error msg) := by
  constructor
  · exact handles_snoc_neutral ⟨fun _ => rfl, rfl⟩ h
  · intro hh
    cases hh

theorem keeps_emit_neutral {σ : Type} (limit : Nat) (g : (Nat → Nat) → List Nat) (e : Ev)
    (hn : Neutral e) : Keeps limit (emit e : Run σ → Run σ) g g := by
  intro r _ h
  exact ok_emit_neutral hn h

theorem keeps_remove_previous {σ : Type} (limit : Nat) (g : (Nat → Nat) → List Nat)
    (env : FileSystem σ) (test_dir : String) :
    Keeps limit (remove_previous env test_dir) g g := by
  intro r _ h
  unfold remove_previous
  simp only [check_error]
  have h1 : Ok limit g ({ r with fs := (env.path_exists r.fs test_dir).2 }.emit
      (Ev.path_exists test_dir (env.path_exists r.fs test_dir).1)) :=
    ok_emit_neutral (r := { r with fs := (env.path_exists r.fs test_dir).2 })
      ⟨fun _ => rfl, rfl⟩ h
  split
  · split
    · exact ok_mbed_error _ (ok_emit_neutral (e := Ev.rmtree test_dir _) (g := g)
        ⟨fun _ => rfl, rfl⟩ h1).1
    · exact ok_emit_neutral (e := Ev.rmtree test_dir _) ⟨fun _ => rfl, rfl⟩ h1
  · exact h1

theorem keeps_create_test_dir {σ : Type} (limit : Nat) (g : (Nat → Nat) → List Nat)
    (env : FileSystem σ) (test_dir : String) :
    Keeps limit (create_test_dir env test_dir) g g := by
  intro r _ h
  unfold create_test_dir
  simp only [check_error]
  have h1 : Ok limit g ({ r with fs := (env.makedirs r.fs test_dir 0o777 true).2 }.emit
      (Ev.makedirs test_dir 0o777 true (env.makedirs r.fs test_dir 0o777 true).1)) :=
    ok_emit_neutral (r := { r with fs := (env.makedirs r.fs test_dir 0o777 true).2 })
      ⟨fun _ => rfl, rfl⟩ h
  split
  · exact ok_mbed_error _ h1.1
  · exact h1

theorem keeps_remove_test_dir {σ : Type} (limit : Nat) (g : (Nat → Nat) → List Nat)
    (env : FileSystem σ) (test_dir : String) :
    Keeps limit (remove_test_dir env test_dir) g g := by
  intro r _ h
  exact ok_emit_neutral (r := { r with fs := (env.rmtree r.fs test_dir).2 })
    ⟨fun _ => rfl, rfl⟩ h

/-- Storing into entry `i` leaves the entries below `i` as they were. -/
theorem map_update_range (a : Nat → Nat) (i v : Nat) :
    (List.range i).map (Function.update a i v) = (List.range i).map a := by
  apply List.map_congr_left
  intro x hx
  have hx' : x ≠ i := by
    have := List.mem_range.mp hx
    omega
  simp [Function.update, hx']

/-- One pass of the open loop, for the pointer `v` that `fopen` returns. -/
theorem ok_open_step {σ : Type} {limit i : Nat} {r : Run σ} (path mode : String) (v : Nat)
    (w : σ) (hi : i < limit) (h : Ok limit (fun a => (List.range i).map a) r)
    (hr : r.halted = false) :
    Ok limit (fun a => (List.range (i + 1)).map a)
      (if Function.update r.files i v i = 0 then
        ({ r with fs := w, files := Function.update r.files i v }.emit
          (Ev.fopen path mode v)).mbed_error "Fail to create file"
       else { r with fs := w, files := Function.update r.files i v }.emit
          (Ev.fopen path mode v)) := by
  rw [Function.update_same]
  have e1 : (List.range (i + 1)).map (Function.update r.files i v) =
      (List.range i).map r.files ++ [v] := by
    rw [List.range_succ, List.map_append, map_update_range]
    simp
  split
  · rename_i h0
    exact ok_mbed_error _ (handles_snoc_neutral
      (e := Ev.fopen path mode v) ⟨fun _ => by simp [open_step, h0], rfl⟩ h.1)
  · rename_i h0
    exact ok_step (k := fun a => (List.range (i + 1)).map a) w
      (Function.update r.files i v) h hr
      (by show _ = (List.range (i + 1)).map (Function.update r.files i v)
          rw [e1]; simp [open_step, h0])
      (by show ((List.range (i + 1)).map (Function.update r.files i v)).length ≤ limit
          rw [e1]; simp; omega) (fun hc => by cases hc)

/-- The open loop: from no handle open to the handles `files[0..files_per_round)`. -/
theorem keeps_open_files {σ : Type} (env : FileSystem σ) (test_dir mode : String)
    (round_i files_per_round : Nat) :
    Keeps files_per_round (open_files env test_dir mode round_i files_per_round)
      (fun _ => []) (fun a => (List.range files_per_round).map a) := by
  have key : Keeps files_per_round (open_files env test_dir mode round_i files_per_round)
      ((fun i a => (List.range i).map a) 0)
      ((fun i a => (List.range i).map a) files_per_round) :=
    @keeps_for_range σ files_per_round files_per_round _
      (fun i a => (List.range i).map a) (by
        intro i hi r hr h
        exact ok_open_step _ _ _ _ hi h hr)
  simpa using key

/-- The close loop: from the handles `files[0..files_per_round)` to none, one
entry of the array after the other. -/
theorem keeps_close_files {σ : Type} (env : FileSystem σ) (files_per_round : Nat) :
    Keeps files_per_round (close_files env files_per_round)
      (fun a => (List.range files_per_round).map a) (fun _ => []) := by
  have key : Keeps files_per_round (close_files env files_per_round)
      ((fun i a => (List.range' i (files_per_round - i)).map a) 0)
      ((fun i a => (List.range' i (files_per_round - i)).map a) files_per_round) :=
    @keeps_for_range σ files_per_round files_per_round _
      (fun i a => (List.range' i (files_per_round - i)).map a) (by
        intro i hi r hr h
        have h' : Ok files_per_round
            (fun a => (List.range' i (files_per_round - i)).map a) r := h
        have hs : files_per_round - i = (files_per_round - (i + 1)) + 1 := by omega
        have hstep : ∀ code, open_step ((List.range' i (files_per_round - i)).map r.files)
            (Ev.fclose (r.files i) code) =
            (List.range' (i + 1) (files_per_round - (i + 1))).map r.files := by
          intro code
          rw [hs, List.range'_succ]
          simp [open_step]
        have h1 : Ok files_per_round
            (fun a => (List.range' (i + 1) (files_per_round - (i + 1))).map a)
            ({ r with fs := (env.fclose r.fs (r.files i)).2, files := r.files }.emit
              (Ev.fclose (r.files i) (env.fclose r.fs (r.files i)).1)) :=
          ok_step _ _ h' hr (hstep _) (by simp) (fun hc => by cases hc)
        simp only [emit] at h1 ⊢
        split
        · exact ok_mbed_error _ h1.1
        · exact h1)
  simpa [List.range_eq_range'] using key

theorem keeps_write_blocks {σ : Type} (limit : Nat) (g : (Nat → Nat) → List Nat)
    (env : FileSystem σ) (buff : List Nat)
    (block_size blocks_per_file files_per_round : Nat) :
    Keeps limit (write_blocks env buff block_size blocks_per_file files_per_round) g g := by
  apply keeps_for_range_const
  intro _
  apply keeps_for_range_const
  intro i r _ h
  have h1 : Ok limit g ({ r with fs := (env.fwrite r.fs buff block_size (r.files i)).2 }.emit
      (Ev.fwrite block_size (r.files i) (env.fwrite r.fs buff block_size (r.files i)).1)) :=
    ok_emit_neutral (r := { r with fs := _ }) ⟨fun _ => rfl, rfl⟩ h
  simp only
  split
  · exact ok_mbed_error _ h1.1
  · exact ok_emit_neutral ⟨fun _ => rfl, rfl⟩ h1

theorem keeps_read_blocks {σ : Type} (limit : Nat) (g : (Nat → Nat) → List Nat)
    (env : FileSystem σ) (block_size blocks_per_file files_per_round : Nat) :
    Keeps limit (read_blocks env block_size blocks_per_file files_per_round) g g := by
  apply keeps_for_range_const
  intro _
  apply keeps_for_range_const
  intro i r _ h
  have h1 : Ok limit g ({ r with fs := (env.fread r.fs block_size (r.files i)).2 }.emit
      (Ev.fread block_size (r.files i) (env.fread r.fs block_size (r.files i)).1)) :=
    ok_emit_neutral (r := { r with fs := _ }) ⟨fun _ => rfl, rfl⟩ h
  simp only
  split
  · exact ok_mbed_error _ h1.1
  · exact ok_emit_neutral ⟨fun _ => rfl, rfl⟩ h1

/-- A checkpoint reached with no handle open. -/
theorem keeps_checkpoint {σ : Type} (limit : Nat) (e : Ev) (he : ∀ l, open_step l e = l) :
    Keeps limit (emit e : Run σ → Run σ) (fun _ => []) (fun _ => []) := by
  intro r hr h
  exact ok_step (k := fun _ => []) r.fs r.files h hr (he _) (by simp) (fun _ => rfl)

theorem keeps_write_rounds {σ : Type} (env : FileSystem σ) (test_dir : String)
    (buff : List Nat) (block_size blocks_per_file files_per_round n_rounds : Nat) :
    Keeps files_per_round
      (write_rounds env test_dir buff block_size blocks_per_file files_per_round n_rounds)
      (fun _ => []) (fun _ => []) := by
  apply keeps_for_range_const
  intro round_i
  exact keeps_comp (keeps_comp (keeps_comp
    (keeps_checkpoint files_per_round (Ev.round_begin Measurer.write_measurer round_i)
      (fun _ => rfl))
    (keeps_open_files env test_dir "wb" round_i files_per_round) (guarded_for_range _ _))
    (keeps_write_blocks files_per_round _ env buff block_size blocks_per_file
      files_per_round) (guarded_for_range _ _))
    (keeps_close_files env files_per_round) (guarded_for_range _ _)

theorem keeps_read_rounds {σ : Type} (env : FileSystem σ) (test_dir : String)
    (block_size blocks_per_file files_per_round n_rounds : Nat) :
    Keeps files_per_round
      (read_rounds env test_dir block_size blocks_per_file files_per_round n_rounds)
      (fun _ => []) (fun _ => []) := by
  apply keeps_for_range_const
  intro round_i
  exact keeps_comp (keeps_comp (keeps_comp
    (keeps_checkpoint files_per_round (Ev.round_begin Measurer.read_measurer round_i)
      (fun _ => rfl))
    (keeps_open_files env test_dir "rb" round_i files_per_round) (guarded_for_range _ _))
    (keeps_read_blocks files_per_round _ env block_size blocks_per_file
      files_per_round) (guarded_for_range _ _))
    (keeps_close_files env files_per_round) (guarded_for_range _ _)

/-- The handle discipline rejects a trace that begins a round with a handle open. -/
theorem handles_ok_rejects_leak :
    ¬ HandlesOK 2 [Ev.fopen "/fat/d/test_0_0.txt" "wb" 1,
      Ev.round_begin Measurer.write_measurer 1] := by
  intro h
  have h1 := (h [Ev.fopen "/fat/d/test_0_0.txt" "wb" 1]
    (Ev.round_begin Measurer.write_measurer 1) (List.prefix_refl _)).2 rfl
  simp [open_handles, open_step] at h1

/-- The handle discipline rejects a round that closes the first handle twice
and leaves the second one open. -/
theorem handles_ok_rejects_wrong_close :
    ¬ HandlesOK 2 [Ev.fopen "/fat/d/test_0_0.txt" "wb" 1,
      Ev.fopen "/fat/d/test_0_1.txt" "wb" 2, Ev.fclose 1 0, Ev.fclose 1 0,
      Ev.round_begin Measurer.write_measurer 1] := by
  intro h
  have h1 := (h [Ev.fopen "/fat/d/test_0_0.txt" "wb" 1,
      Ev.fopen "/fat/d/test_0_1.txt" "wb" 2, Ev.fclose 1 0, Ev.fclose 1 0]
    (Ev.round_begin Measurer.write_measurer 1) (List.prefix_refl _)).2 rfl
  simp [open_handles, open_step] at h1

/-- The state at the end of `measure_write_read_speed`. -/
theorem write_read_ok {σ : Type} (bits : Nat) (env : FileSystem σ) (fs : σ)
    (test_dir : String) (cleanup_dir : Bool)
    (block_size blocks_per_file files_per_round n_rounds : Nat) :
    Ok files_per_round (fun _ => []) (measure_write_read_speed bits env fs test_dir
      cleanup_dir block_size blocks_per_file files_per_round n_rounds) := by
  have h0 : Ok files_per_round (fun _ => []) (Run.init fs) :=
    ⟨handles_nil _, fun _ => by simp [Run.init, open_handles]⟩
  have hn : ∀ e : Ev, Neutral e →
      Keeps files_per_round (next (emit e : Run σ → Run σ)) (fun _ => []) (fun _ => []) :=
    fun e he => keeps_next (keeps_emit_neutral _ _ e he)
  have h1 := keeps_remove_previous files_per_round (fun _ => []) env test_dir _ rfl h0
  have h2 := keeps_apply (keeps_next (keeps_create_test_dir files_per_round (fun _ => [])
    env test_dir)) (guarded_next _) _ h1
  have h3 := keeps_apply (hn (Ev.pm_new Measurer.write_measurer "B/s"
    (total_blocks bits blocks_per_file files_per_round n_rounds) 64 block_size)
    ⟨fun _ => rfl, rfl⟩) (guarded_next _) _ h2
  have h4 := keeps_apply (hn (Ev.pm_start Measurer.write_measurer) ⟨fun _ => rfl, rfl⟩)
    (guarded_next _) _ h3
  have h5 := keeps_apply (keeps_write_rounds env test_dir (List.replicate block_size 66)
    block_size blocks_per_file files_per_round n_rounds) (guarded_for_range _ _) _ h4
  have h6 := keeps_apply (hn (Ev.pm_finish Measurer.write_measurer) ⟨fun _ => rfl, rfl⟩)
    (guarded_next _) _ h5
  have h7 := keeps_apply (hn (Ev.pm_new Measurer.read_measurer "B/s"
    (total_blocks bits blocks_per_file files_per_round n_rounds) 64 block_size)
    ⟨fun _ => rfl, rfl⟩) (guarded_next _) _ h6
  have h8 := keeps_apply (hn (Ev.pm_start Measurer.read_measurer) ⟨fun _ => rfl, rfl⟩)
    (guarded_next _) _ h7
  have h9 := keeps_apply (keeps_read_rounds env test_dir
    block_size blocks_per_file files_per_round n_rounds) (guarded_for_range _ _) _ h8
  have h10 := keeps_apply (hn (Ev.pm_finish Measurer.read_measurer) ⟨fun _ => rfl, rfl⟩)
    (guarded_next _) _ h9
  have h11 := keeps_apply (keeps_next (keeps_checkpoint files_per_round Ev.delete_files
    (fun _ => rfl))) (guarded_next _) _ h10
  exact keeps_apply (keeps_next (keeps_remove_test_dir files_per_round (fun _ => [])
    env test_dir)) (guarded_next _) _ h11

theorem next_of_not_halted {σ : Type} (f : Run σ → Run σ) (r : Run σ)
    (h : (next f r).halted = false) : r.halted = false ∧ next f r = f r := by
  cases hh : r.halted with
  | false => exact ⟨rfl, by simp [next, hh]⟩
  | true => rw [guarded_next f r hh, hh] at h; cases h

/-- A write/read run that is not halted has released the array. -/
theorem write_read_releases {σ : Type} (bits : Nat) (env : FileSystem σ) (fs : σ)
    (test_dir : String) (cleanup_dir : Bool)
    (block_size blocks_per_file files_per_round n_rounds : Nat)
    (hrun : (measure_write_read_speed bits env fs test_dir cleanup_dir block_size
      blocks_per_file files_per_round n_rounds).halted = false) :
    Ev.delete_files ∈ (measure_write_read_speed bits env fs test_dir cleanup_dir block_size
      blocks_per_file files_per_round n_rounds).trace := by
  unfold measure_write_read_speed at hrun ⊢
  simp only at hrun ⊢
  obtain ⟨h1, e1⟩ := next_of_not_halted _ _ hrun
  rw [e1]
  obtain ⟨_, e2⟩ := next_of_not_halted _ _ h1
  rw [e2]
  simp [remove_test_dir, emit]

/-! ## A halted run ends in `MBED_ERROR` -/

theorem stops_apply {σ : Type} {f : Run σ → Run σ} (hf : Stops f) (hg : Guarded f)
    (r : Run σ) (h : HaltsLast r) : HaltsLast (f r) := by
  cases hh : r.halted with
  | false => exact hf r hh
  | true =>
    rw [hg r hh]
    exact h

theorem stops_next {σ : Type} {f : Run σ → Run σ} (hf : Stops f) : Stops (next f) := by
  intro r hr
  simp only [next, hr]
  exact hf r hr

theorem stops_for_range {σ : Type} (n : Nat) (body : Nat → Run σ → Run σ)
    (hb : ∀ i, Stops (body i)) : Stops (for_range n body) := by
  intro r hr
  apply for_range_induction n body r (fun _ r' => HaltsLast r')
  · intro hh
    rw [hr] at hh
    cases hh
  · intro i r' _ h
    exact stops_apply (stops_next (hb i)) (guarded_next _) r' h

theorem stops_comp {σ : Type} {f k : Run σ → Run σ} (hf : Stops f) (hk : Stops k)
    (hkg : Guarded k) : Stops (fun r => k (f r)) := by
  intro r hr
  exact stops_apply hk hkg (f r) (hf r hr)

theorem stops_emit {σ : Type} (e : Ev) : Stops (emit e : Run σ → Run σ) := by
  intro r hr hh
  simp [emit, hr] at hh

theorem halts_last_mbed_error {σ : Type} (msg : String) (r : Run σ) :
    HaltsLast (r.mbed_error msg) := by
  intro _
  exact ⟨msg, by simp [mbed_error]⟩

theorem stops_remove_previous {σ : Type} (env : FileSystem σ) (test_dir : String) :
    Stops (remove_previous env test_dir) := by
  intro r hr
  unfold remove_previous
  simp only [check_error]
  split
  · split
    · exact halts_last_mbed_error _ _
    · intro hh
      simp [emit, hr] at hh
  · intro hh
    simp [emit, hr] at hh

theorem stops_create_test_dir {σ : Type} (env : FileSystem σ) (test_dir : String) :
    Stops (create_test_dir env test_dir) := by
  intro r hr
  unfold create_test_dir
  simp only [check_error]
  split
  · exact halts_last_mbed_error _ _
  · intro hh
    simp [emit, hr] at hh

theorem stops_remove_test_dir {σ : Type} (env : FileSystem σ) (test_dir : String) :
    Stops (remove_test_dir env test_dir) := by
  intro r hr hh
  simp [remove_test_dir, emit, hr] at hh

theorem stops_open_files {σ : Type} (env : FileSystem σ) (test_dir mode : String)
    (round_i files_per_round : Nat) :
    Stops (open_files env test_dir mode round_i files_per_round) := by
  apply stops_for_range
  intro i r hr
  simp only
  split
  · exact halts_last_mbed_error _ _
  · intro hh
    simp [emit, hr] at hh

theorem stops_close_files {σ : Type} (env : FileSystem σ) (files_per_round : Nat) :
    Stops (close_files env files_per_round) := by
  apply stops_for_range
  intro i r hr
  simp only
  split
  · exact halts_last_mbed_error _ _
  · intro hh
    simp [emit, hr] at hh

theorem stops_write_blocks {σ : Type} (env : FileSystem σ) (buff : List Nat)
    (block_size blocks_per_file files_per_round : Nat) :
    Stops (write_blocks env buff block_size blocks_per_file files_per_round) := by
  apply stops_for_range
  intro _
  apply stops_for_range
  intro i r hr
  simp only
  split
  · exact halts_last_mbed_error _ _
  · intro hh
    simp [emit, hr] at hh

theorem stops_read_blocks {σ : Type} (env : FileSystem σ)
    (block_size blocks_per_file files_per_round : Nat) :
    Stops (read_blocks env block_size blocks_per_file files_per_round) := by
  apply stops_for_range
  intro _
  apply stops_for_range
  intro i r hr
  simp only
  split
  · exact halts_last_mbed_error _ _
  · intro hh
    simp [emit, hr] at hh

theorem stops_write_rounds {σ : Type} (env : FileSystem σ) (test_dir : String)
    (buff : List Nat) (block_size blocks_per_file files_per_round n_rounds : Nat) :
    Stops (write_rounds env test_dir buff block_size blocks_per_file files_per_round
      n_rounds) := by
  apply stops_for_range
  intro round_i
  exact stops_comp (stops_comp (stops_comp
    (stops_emit (Ev.round_begin Measurer.write_measurer round_i))
    (stops_open_files env test_dir "wb" round_i files_per_round) (guarded_for_range _ _))
    (stops_write_blocks env buff block_size blocks_per_file files_per_round)
    (guarded_for_range _ _))
    (stops_close_files env files_per_round) (guarded_for_range _ _)

theorem stops_read_rounds {σ : Type} (env : FileSystem σ) (test_dir : String)
    (block_size blocks_per_file files_per_round n_rounds : Nat) :
    Stops (read_rounds env test_dir block_size blocks_per_file files_per_round
      n_rounds) := by
  apply stops_for_range
  intro round_i
  exact stops_comp (stops_comp (stops_comp
    (stops_emit (Ev.round_begin Measurer.read_measurer round_i))
    (stops_open_files env test_dir "rb" round_i files_per_round) (guarded_for_range _ _))
    (stops_read_blocks env block_size blocks_per_file files_per_round)
    (guarded_for_range _ _))
    (stops_close_files env files_per_round) (guarded_for_range _ _)

/-- A halted write/read run has `MBED_ERROR` as its last step. -/
theorem write_read_halts_last {σ : Type} (bits : Nat) (env : FileSystem σ) (fs : σ)
    (test_dir : String) (cleanup_dir : Bool)
    (block_size blocks_per_file files_per_round n_rounds : Nat) :
    HaltsLast (measure_write_read_speed bits env fs test_dir cleanup_dir block_size
      blocks_per_file files_per_round n_rounds) := by
  have hn : ∀ e : Ev, Stops (next (emit e : Run σ → Run σ)) :=
    fun e => stops_next (stops_emit e)
  have h1 := stops_remove_previous env test_dir (Run.init fs) rfl
  have h2 := stops_apply (stops_next (stops_create_test_dir env test_dir))
    (guarded_next _) _ h1
  have h3 := stops_apply (hn (Ev.pm_new Measurer.write_measurer "B/s"
    (total_blocks bits blocks_per_file files_per_round n_rounds) 64 block_size))
    (guarded_next _) _ h2
  have h4 := stops_apply (hn (Ev.pm_start Measurer.write_measurer)) (guarded_next _) _ h3
  have h5 := stops_apply (stops_write_rounds env test_dir (List.replicate block_size 66)
    block_size blocks_per_file files_per_round n_rounds) (guarded_for_range _ _) _ h4
  have h6 := stops_apply (hn (Ev.pm_finish Measurer.write_measurer)) (guarded_next _) _ h5
  have h7 := stops_apply (hn (Ev.pm_new Measurer.read_measurer "B/s"
    (total_blocks bits blocks_per_file files_per_round n_rounds) 64 block_size))
    (guarded_next _) _ h6
  have h8 := stops_apply (hn (Ev.pm_start Measurer.read_measurer)) (guarded_next _) _ h7
  have h9 := stops_apply (stops_read_rounds env test_dir
    block_size blocks_per_file files_per_round n_rounds) (guarded_for_range _ _) _ h8
  have h10 := stops_apply (hn (Ev.pm_finish Measurer.read_measurer)) (guarded_next _) _ h9
  have h11 := stops_apply (hn Ev.delete_files) (guarded_next _) _ h10
  exact stops_apply (stops_next (stops_remove_test_dir env test_dir)) (guarded_next _) _ h11

/-- C9 (amended): for every behaviour of the file system, failures of `fopen`,
`fwrite`, `fread` and `fclose` included, after every step of
`measure_write_read_speed` at most `files_per_round` handles are open, and no
handle is open at the top of a round (where the `files` array is refilled) nor
at `delete[] files`.  A run that no failure halts reaches `delete[] files` and
ends with no handle open: every handle opened in a round has been closed.  A
run that a failure halts ends in `MBED_ERROR`: nothing is closed, refilled or
released after the failure. -/
theorem write_read_handles_closed {σ : Type} (bits : Nat) (env : FileSystem σ) (fs : σ)
    (test_dir : String) (cleanup_dir : Bool)
    (block_size blocks_per_file files_per_round n_rounds : Nat) :
    (∀ pre e, (pre ++ [e]) <+: (measure_write_read_speed bits env fs test_dir cleanup_dir
        block_size blocks_per_file files_per_round n_rounds).trace →
      (open_handles (pre ++ [e])).length ≤ files_per_round ∧
      ((∃ m round_i, e = Ev.round_begin m round_i) ∨ e = Ev.delete_files →
        open_handles pre = [])) ∧
    ((measure_write_read_speed bits env fs test_dir cleanup_dir block_size blocks_per_file
        files_per_round n_rounds).halted = false →
      Ev.delete_files ∈ (measure_write_read_speed bits env fs test_dir cleanup_dir
        block_size blocks_per_file files_per_round n_rounds).trace ∧
      open_handles (measure_write_read_speed bits env fs test_dir cleanup_dir block_size
        blocks_per_file files_per_round n_rounds).trace = []) ∧
    ((measure_write_read_speed bits env fs test_dir cleanup_dir block_size blocks_per_file
        files_per_round n_rounds).halted = true →
      ∃ msg, (measure_write_read_speed bits env fs test_dir cleanup_dir block_size
        blocks_per_file files_per_round n_rounds).trace.getLast? =
        some (Ev.mbed_error msg)) := by
  have hok := write_read_ok bits env fs test_dir cleanup_dir block_size blocks_per_file
    files_per_round n_rounds
  refine ⟨?_, fun hrun => ⟨write_read_releases bits env fs test_dir cleanup_dir block_size
    blocks_per_file files_per_round n_rounds hrun, hok.2 hrun⟩,
    write_read_halts_last bits env fs test_dir cleanup_dir block_size blocks_per_file
      files_per_round n_rounds⟩
  intro pre e hp
  refine ⟨(hok.1 pre e hp).1, fun hc => (hok.1 pre e hp).2 ?_⟩
  rcases hc with ⟨m, round_i, rfl⟩ | rfl <;> rfl

/-- C9 (witness): two rounds of two files in the world whose third `fopen`
fails.  The first round opens and closes the handles 1 and 2; the second round
begins with no handle open, then the run halts and ends in `MBED_ERROR`.  In
the world where every call succeeds the run reaches `delete[] files` and ends
with no handle open. -/
theorem write_read_handles_closed_witness :
    ([Ev.path_exists "/fat/d" false, Ev.makedirs "/fat/d" 0o777 true 0,
      Ev.pm_new Measurer.write_measurer "B/s" 4 64 4, Ev.pm_start Measurer.write_measurer,
      Ev.round_begin Measurer.write_measurer 0,
      Ev.fopen "/fat/d/test_0_0.txt" "wb" 1, Ev.fopen "/fat/d/test_0_1.txt" "wb" 2,
      Ev.fwrite 4 1 4, Ev.pm_update Measurer.write_measurer,
      Ev.fwrite 4 2 4, Ev.pm_update Measurer.write_measurer,
      Ev.fclose 1 0, Ev.fclose 2 0] ++ [Ev.round_begin Measurer.write_measurer 1]) <+:
      (measure_write_read_speed 32 third_open_fails 0 "/fat/d" true 4 1 2 2).trace ∧
    open_handles [Ev.path_exists "/fat/d" false, Ev.makedirs "/fat/d" 0o777 true 0,
      Ev.pm_new Measurer.write_measurer "B/s" 4 64 4, Ev.pm_start Measurer.write_measurer,
      Ev.round_begin Measurer.write_measurer 0,
      Ev.fopen "/fat/d/test_0_0.txt" "wb" 1, Ev.fopen "/fat/d/test_0_1.txt" "wb" 2,
      Ev.fwrite 4 1 4, Ev.pm_update Measurer.write_measurer,
      Ev.fwrite 4 2 4, Ev.pm_update Measurer.write_measurer,
      Ev.fclose 1 0, Ev.fclose 2 0] = [] ∧
    (measure_write_read_speed 32 third_open_fails 0 "/fat/d" true 4 1 2 2).halted = true ∧
    (∃ msg, (measure_write_read_speed 32 third_open_fails 0 "/fat/d" true 4 1 2
      2).trace.getLast? = some (Ev.mbed_error msg)) ∧
    (measure_write_read_speed 32 healthy 0 "/fat/d" true 4 1 2 2).halted = false ∧
    Ev.delete_files ∈ (measure_write_read_speed 32 healthy 0 "/fat/d" true 4 1 2 2).trace ∧
    open_handles (measure_write_read_speed 32 healthy 0 "/fat/d" true 4 1 2 2).trace = [] :=
  ⟨by decide,
   ((write_read_handles_closed 32 third_open_fails 0 "/fat/d" true 4 1 2 2).1
     [Ev.path_exists "/fat/d" false, Ev.makedirs "/fat/d" 0o777 true 0,
      Ev.pm_new Measurer.write_measurer "B/s" 4 64 4, Ev.pm_start Measurer.write_measurer,
      Ev.round_begin Measurer.write_measurer 0,
      Ev.fopen "/fat/d/test_0_0.txt" "wb" 1, Ev.fopen "/fat/d/test_0_1.txt" "wb" 2,
      Ev.fwrite 4 1 4, Ev.pm_update Measurer.write_measurer,
      Ev.fwrite 4 2 4, Ev.pm_update Measurer.write_measurer,
      Ev.fclose 1 0, Ev.fclose 2 0]
     (Ev.round_begin Measurer.write_measurer 1) (by decide)).2 (Or.inl ⟨_, _, rfl⟩),
   by decide,
   (write_read_handles_closed 32 third_open_fails 0 "/fat/d" true 4 1 2 2).2.2 (by decide),
   by decide,
   (write_read_handles_closed 32 healthy 0 "/fat/d" true 4 1 2 2).2.1 (by decide)⟩

/-- C9 (counterexample): one round of two files in the world where `fwrite` is
short.  Both files are opened, the first `fwrite` fails and the run halts in
`MBED_ERROR`: no `fclose` is made, the handles 1 and 2 opened in the round stay
open, and the array is neither refilled nor released. -/
theorem write_failure_leaves_handles_open :
    (measure_write_read_speed 32 short_write 0 "/fat/d" true 4 1 2 1).trace =
      [Ev.path_exists "/fat/d" false, Ev.makedirs "/fat/d" 0o777 true 0,
       Ev.pm_new Measurer.write_measurer "B/s" 2 64 4, Ev.pm_start Measurer.write_measurer,
       Ev.round_begin Measurer.write_measurer 0,
       Ev.fopen "/fat/d/test_0_0.txt" "wb" 1, Ev.fopen "/fat/d/test_0_1.txt" "wb" 2,
       Ev.fwrite 4 1 0, Ev.mbed_error "Fail to write data to file"] ∧
    (measure_write_read_speed 32 short_write 0 "/fat/d" true 4 1 2 1).halted = true ∧
    open_handles (measure_write_read_speed 32 short_write 0 "/fat/d" true 4 1 2 1).trace
      = [1, 2] ∧
    ¬ ∃ file code, Ev.fclose file code ∈
      (measure_write_read_speed 32 short_write 0 "/fat/d" true 4 1 2 1).trace := by
  have h : (measure_write_read_speed 32 short_write 0 "/fat/d" true 4 1 2 1).trace =
      [Ev.path_exists "/fat/d" false, Ev.makedirs "/fat/d" 0o777 true 0,
       Ev.pm_new Measurer.write_measurer "B/s" 2 64 4, Ev.pm_start Measurer.write_measurer,
       Ev.round_begin Measurer.write_measurer 0,
       Ev.fopen "/fat/d/test_0_0.txt" "wb" 1, Ev.fopen "/fat/d/test_0_1.txt" "wb" 2,
       Ev.fwrite 4 1 0, Ev.mbed_error "Fail to write data to file"] := by decide
  refine ⟨h, by decide, by decide, ?_⟩
  rw [h]
  simp

/-! ## Claims about the file creation test and the `cleanup_dir` argument -/

/-- C7 (the code at the failing input): two files in a world where every
`write_data` fails with status `-1`.  The run is not halted: after the failed
`write_data` of file 0 its `update()` is made, file 1 is written and counted as
well, and the run goes on to `finish()` and `rmtree`. -/
theorem creation_ignores_write_data_status :
    (measure_file_creation_speed failing_write_data 0 "/fat/cft_demo_dir" true 128 2).trace =
      [Ev.path_exists "/fat/cft_demo_dir" false,
       Ev.makedirs "/fat/cft_demo_dir" 0o777 true 0,
       Ev.pm_new Measurer.progress_measurer "it/s" 2 32 1,
       Ev.pm_start Measurer.progress_measurer,
       Ev.write_data "/fat/cft_demo_dir/test_file_0" 128 (-1),
       Ev.pm_update Measurer.progress_measurer,
       Ev.write_data "/fat/cft_demo_dir/test_file_1" 128 (-1),
       Ev.pm_update Measurer.progress_measurer,
       Ev.pm_finish Measurer.progress_measurer,
       Ev.rmtree "/fat/cft_demo_dir" 0] ∧
    (measure_file_creation_speed failing_write_data 0 "/fat/cft_demo_dir" true 128 2).halted
      = false := by
  decide

theorem last_of_remove_test_dir {σ : Type} (env : FileSystem σ) (test_dir : String)
    (r : Run σ) (h : (next (remove_test_dir env test_dir) r).halted = false) :
    ∃ code, (next (remove_test_dir env test_dir) r).trace.getLast? =
      some (Ev.rmtree test_dir code) := by
  have hr : r.halted = false := by
    cases hh : r.halted with
    | false => rfl
    | true => rw [guarded_next _ r hh, hh] at h; exact h
  refine ⟨(env.rmtree r.fs test_dir).1, ?_⟩
  simp [next, hr, remove_test_dir, emit]

/-- C10: both benchmark functions ignore `cleanup_dir`: runs that differ in
`cleanup_dir` only, from the same world, have the same trace and the same
outcome; a run that is not halted ends with `rmtree(test_dir)`, also when
`cleanup_dir` is false. -/
theorem runs_independent_of_cleanup_dir {σ : Type} (bits : Nat) (env : FileSystem σ) (fs : σ)
    (test_dir : String) (c₁ c₂ : Bool) (file_size n_files : Nat)
    (block_size blocks_per_file files_per_round n_rounds : Nat) :
    ((measure_file_creation_speed env fs test_dir c₁ file_size n_files).trace =
        (measure_file_creation_speed env fs test_dir c₂ file_size n_files).trace ∧
      (measure_file_creation_speed env fs test_dir c₁ file_size n_files).halted =
        (measure_file_creation_speed env fs test_dir c₂ file_size n_files).halted) ∧
    ((measure_write_read_speed bits env fs test_dir c₁ block_size blocks_per_file
          files_per_round n_rounds).trace =
        (measure_write_read_speed bits env fs test_dir c₂ block_size blocks_per_file
          files_per_round n_rounds).trace ∧
      (measure_write_read_speed bits env fs test_dir c₁ block_size blocks_per_file
          files_per_round n_rounds).halted =
        (measure_write_read_speed bits env fs test_dir c₂ block_size blocks_per_file
          files_per_round n_rounds).halted) ∧
    ((measure_file_creation_speed env fs test_dir false file_size n_files).halted = false →
      ∃ code, (measure_file_creation_speed env fs test_dir false file_size n_files).trace.getLast?
        = some (Ev.rmtree test_dir code)) ∧
    ((measure_write_read_speed bits env fs test_dir false block_size blocks_per_file
        files_per_round n_rounds).halted = false →
      ∃ code, (measure_write_read_speed bits env fs test_dir false block_size blocks_per_file
        files_per_round n_rounds).trace.getLast? = some (Ev.rmtree test_dir code)) :=
  ⟨⟨rfl, rfl⟩, ⟨rfl, rfl⟩,
   fun h => last_of_remove_test_dir env test_dir _ h,
   fun h => last_of_remove_test_dir env test_dir _ h⟩

/-- C10 (witness): complete runs with `cleanup_dir = false` in the world where
every call succeeds end with `rmtree`. -/
theorem runs_independent_of_cleanup_dir_witness :
    ((measure_file_creation_speed healthy 0 "/fat/d" false 8 3).halted = false ∧
      ∃ code, (measure_file_creation_speed healthy 0 "/fat/d" false 8 3).trace.getLast?
        = some (Ev.rmtree "/fat/d" code)) ∧
    ((measure_write_read_speed 32 healthy 0 "/fat/d" false 4 2 2 2).halted = false ∧
      ∃ code, (measure_write_read_speed 32 healthy 0 "/fat/d" false 4 2 2 2).trace.getLast?
        = some (Ev.rmtree "/fat/d" code)) :=
  ⟨⟨by decide,
    (runs_independent_of_cleanup_dir 32 healthy 0 "/fat/d" true false 8 3 4 2 2 2).2.2.1
      (by decide)⟩,
   ⟨by decide,
    (runs_independent_of_cleanup_dir 32 healthy 0 "/fat/d" true false 8 3 4 2 2 2).2.2.2
      (by decide)⟩⟩

end FsPerf
